import Mathlib

set_option maxRecDepth 8000

/-!
Verification development for the polymarket-arb-bot repository.

Shallow embedding of the bot's pure computational core, translated from the
Python sources:
  * `src/bot/arbitrage.py`          — within-market arbitrage kernel
  * `src/bot/mirror/portfolio.py`   — 40-slot mirror portfolio
  * `src/bot/datafeed/portfolio.py` — 40-slot datafeed portfolio
  * `src/bot/mirror/address_monitor.py` — wallet position diffing
  * `src/bot/paper_trader.py`       — pre-trade gates and paper fills
  * `src/bot/crypto_arb/crypto_arb_bot.py` — VWAP walk, scan health
  * `src/bot/datafeed/opportunity_detector.py` — Poisson over-probability

Python floats are modelled as exact rationals (`ℚ`); `math.exp` is modelled
with `Real.exp` over `ℝ`.  Python's `round(x, 4)` (round-half-even to four
decimal places) is modelled exactly on rationals by `rnd4`.  Python `dict`s
keyed by token-id are modelled as association lists with dict
insert/pop/lookup semantics.  Fields that cannot influence the verified
state (uuid strings, wall-clock timestamps, log text) are omitted from the
embedded records.
-/

/-- Python `round` to an integer: round half to even (banker's rounding),
acting on the exact rational value. -/
def roundHalfEven (y : ℚ) : ℤ :=
  let f : ℤ := ⌊y⌋
  let r : ℚ := y - f
  if r < 1/2 then f
  else if 1/2 < r then f + 1
  else if f % 2 = 0 then f else f + 1

/-- Python `round(x, 4)`: round half to even at four decimal places. -/
def rnd4 (x : ℚ) : ℚ := (roundHalfEven (x * 10000) : ℚ) / 10000

/-- Association-list lookup with string keys (Python `dict` lookup /
`key in dict`). -/
def dlookup (k : String) : List (String × α) → Option α
  | [] => none
  | (k', v) :: rest => if k' = k then some v else dlookup k rest

/-- Python `dict` assignment `d[k] = v`: update in place if the key exists,
otherwise append at the end (insertion order preserved). -/
def dinsert (k : String) (v : α) : List (String × α) → List (String × α)
  | [] => [(k, v)]
  | (k', v') :: rest => if k' = k then (k, v) :: rest else (k', v') :: dinsert k v rest

/-- Python `dict.pop(k, None)`: remove the entry with the given key. -/
def derase (k : String) : List (String × α) → List (String × α)
  | [] => []
  | (k', v') :: rest => if k' = k then rest else (k', v') :: derase k rest

-- ═════════════════════════════════════════════════════════════════════════
-- src/bot/arbitrage.py
-- ═════════════════════════════════════════════════════════════════════════

/-- `ArbOpportunity` dataclass (src/bot/arbitrage.py).  The identifier
fields extracted from the market dict are carried as plain strings. -/
structure ArbOpportunity where
  market_id : String
  market_question : String
  yes_token_id : String
  no_token_id : String
  yes_ask : ℚ
  no_ask : ℚ
  combined_pct : ℚ
  expected_profit_pct : ℚ
  shares : ℚ
  yes_cost_usdc : ℚ
  no_cost_usdc : ℚ
  estimated_profit_usdc : ℚ
  deriving Repr, DecidableEq

/-- The identifier fields of a market dict after token extraction
(`conditionId`/`question` lookups and `extract_market_token_ids`); the
extraction itself only shuffles strings and cannot influence the numeric
claims, so it is carried as an input record. -/
structure MarketIds where
  market_id : String := ""
  market_question : String := ""
  yes_token_id : String := ""
  no_token_id : String := ""
  deriving Repr, DecidableEq

/-- `find_arb_opportunity` (src/bot/arbitrage.py lines 24-82). -/
def find_arb_opportunity (market : MarketIds) (yes_ask no_ask : ℚ)
    (max_trade_size_usdc max_risk_per_trade_usdc min_profit_pct : ℚ) :
    Option ArbOpportunity :=
  let combined := yes_ask + no_ask
  if 1 ≤ combined then none
  else
    let profit_pct := (1 - combined) / combined * 100
    if profit_pct < min_profit_pct then none
    else
      let max_by_yes_side := max_trade_size_usdc / yes_ask
      let max_by_no_side := max_trade_size_usdc / no_ask
      let max_by_risk := max_risk_per_trade_usdc / combined
      let shares := min max_by_yes_side (min max_by_no_side max_by_risk)
      some {
        market_id := market.market_id
        market_question := market.market_question
        yes_token_id := market.yes_token_id
        no_token_id := market.no_token_id
        yes_ask := yes_ask
        no_ask := no_ask
        combined_pct := combined * 100
        expected_profit_pct := profit_pct
        shares := shares
        yes_cost_usdc := shares * yes_ask
        no_cost_usdc := shares * no_ask
        estimated_profit_usdc := shares * (1 - combined)
      }

-- ═════════════════════════════════════════════════════════════════════════
-- src/bot/mirror/portfolio.py
-- ═════════════════════════════════════════════════════════════════════════

/-- Module-level constant `SLOTS = 40`. -/
def SLOTS : ℕ := 40

/-- Module-level constant `SLOT_SIZE_USDC = 500.0`. -/
def SLOT_SIZE_USDC : ℚ := 500

/-- Module-level constant `STARTING_BALANCE = 20_000.0`. -/
def STARTING_BALANCE : ℚ := 20000

/-- The subset of a Polymarket position dict (`pos_data`) that the
portfolio and monitor code reads.  `none` models an absent key. -/
structure PosData where
  asset : Option String := none
  token_id : Option String := none
  curPrice : Option ℚ := none
  price : Option ℚ := none
  conditionId : Option String := none
  title : Option String := none
  outcome : Option String := none
  deriving Repr, DecidableEq

/-- `pos_data.get("asset") or pos_data.get("token_id", "")` — Python `or`
treats both a missing key and the empty string as falsy. -/
def posTokenId (pd : PosData) : String :=
  match pd.asset with
  | some s => if s = "" then pd.token_id.getD "" else s
  | none => pd.token_id.getD ""

/-- `float(pos_data.get("curPrice") or pos_data.get("price", default))` —
a present-but-zero `curPrice` is falsy and falls through to `price`. -/
def posPrice (pd : PosData) (default : ℚ) : ℚ :=
  match pd.curPrice with
  | some c => if c = 0 then pd.price.getD default else c
  | none => pd.price.getD default

/-- `MirrorPosition` dataclass (src/bot/mirror/models.py); uuid/timestamp
and display fields omitted. -/
structure MirrorPosition where
  market_id : String
  market_question : String
  token_id : String
  outcome : String
  entry_price : ℚ
  current_price : ℚ
  shares : ℚ
  usdc_deployed : ℚ
  triggered_by : String
  deriving Repr, DecidableEq

/-- `QueuedTrade` dataclass (src/bot/mirror/models.py); uuid/timestamp
fields omitted. -/
structure MirrorQueuedTrade where
  market_id : String
  market_question : String
  token_id : String
  outcome : String
  entry_price : ℚ
  triggered_by : String
  triggered_by_address : String
  deriving Repr, DecidableEq

/-- `ResolvedTrade` dataclass (src/bot/mirror/models.py); timestamp fields
omitted. -/
structure MirrorResolvedTrade where
  market_question : String
  outcome : String
  entry_price : ℚ
  exit_price : ℚ
  shares : ℚ
  usdc_deployed : ℚ
  pnl_usdc : ℚ
  triggered_by : String
  result : String
  deriving Repr, DecidableEq

/-- The mutable state of `PortfolioManager` (src/bot/mirror/portfolio.py):
free balance, realized P&L, open positions dict, overflow queue, resolved
history.  Event-bus emission is outside the state. -/
structure MirrorPortfolio where
  balance : ℚ
  realized_pnl : ℚ
  positions : List (String × MirrorPosition)
  queue : List MirrorQueuedTrade
  resolved : List MirrorResolvedTrade
  deriving Repr, DecidableEq

/-- Fresh `PortfolioManager` state (its `__init__`). -/
def mirrorInit (starting_balance : ℚ := STARTING_BALANCE) : MirrorPortfolio :=
  { balance := starting_balance, realized_pnl := 0, positions := [], queue := [], resolved := [] }

/-- `PortfolioManager._create_position` (lines 216-232): shares are
`SLOT_SIZE / entry` rounded to 4 decimals, or 0 when the entry price is
not positive. -/
def mirror_create_position (pd : PosData) (token_id : String) (entry_price : ℚ)
    (nickname : String) : MirrorPosition :=
  let shares := if 0 < entry_price then SLOT_SIZE_USDC / entry_price else 0
  { market_id := pd.conditionId.getD ""
    market_question := pd.title.getD "Unknown market"
    token_id := token_id
    outcome := pd.outcome.getD "Yes"
    entry_price := entry_price
    current_price := entry_price
    shares := rnd4 shares
    usdc_deployed := SLOT_SIZE_USDC
    triggered_by := nickname }

/-- `PortfolioManager.open_position` (lines 59-112).  The `cfg` nickname
only decorates the created records; `cfg.stats` mutation is outside the
portfolio state. -/
def open_position (st : MirrorPortfolio) (nickname : String) (pd : PosData) :
    MirrorPortfolio :=
  let token_id := posTokenId pd
  if token_id = "" then st
  else if (dlookup token_id st.positions).isSome then st
  else if st.queue.any (fun q => q.token_id = token_id) then st
  else
    let entry_price := posPrice pd (1/2)
    if SLOTS ≤ st.positions.length ∨ st.balance < SLOT_SIZE_USDC then
      { st with queue := st.queue ++ [{
          market_id := pd.conditionId.getD ""
          market_question := pd.title.getD "Unknown market"
          token_id := token_id
          outcome := pd.outcome.getD "Yes"
          entry_price := entry_price
          triggered_by := nickname
          triggered_by_address := "" }] }
    else
      { st with
        positions := dinsert token_id
          (mirror_create_position pd token_id entry_price nickname) st.positions
        balance := st.balance - SLOT_SIZE_USDC }

/-- `PortfolioManager._process_queue` (lines 234-263) as a structural
recursion over the queue: drain while a slot and a full slot's balance are
available. -/
def process_queue_aux (queue : List MirrorQueuedTrade) (balance : ℚ)
    (positions : List (String × MirrorPosition)) :
    List MirrorQueuedTrade × ℚ × List (String × MirrorPosition) :=
  match queue with
  | [] => ([], balance, positions)
  | qt :: rest =>
    if positions.length < SLOTS ∧ SLOT_SIZE_USDC ≤ balance then
      let pd : PosData := {
        asset := some qt.token_id
        conditionId := some qt.market_id
        title := some qt.market_question
        outcome := some qt.outcome
        curPrice := some qt.entry_price }
      let pos := mirror_create_position pd qt.token_id qt.entry_price qt.triggered_by
      process_queue_aux rest (balance - SLOT_SIZE_USDC) (dinsert qt.token_id pos positions)
    else (qt :: rest, balance, positions)

/-- `PortfolioManager._process_queue` on the whole state. -/
def process_queue (st : MirrorPortfolio) : MirrorPortfolio :=
  let (q, b, ps) := process_queue_aux st.queue st.balance st.positions
  { st with queue := q, balance := b, positions := ps }

/-- `PortfolioManager.close_position_by_token` (lines 114-163): pop the
position, realize P&L, credit the slot back, classify, prepend to the
resolved history, then drain the queue. -/
def close_position_by_token (st : MirrorPortfolio) (pd : PosData) : MirrorPortfolio :=
  let token_id := posTokenId pd
  match dlookup token_id st.positions with
  | none => st
  | some position =>
    let exit_price := posPrice pd position.entry_price
    let pnl := (exit_price - position.entry_price) * position.shares
    let result := if 1/100 < pnl then "WIN" else if pnl < -(1/100) then "LOSS" else "PUSH"
    let resolved : MirrorResolvedTrade := {
      market_question := position.market_question
      outcome := position.outcome
      entry_price := position.entry_price
      exit_price := exit_price
      shares := position.shares
      usdc_deployed := position.usdc_deployed
      pnl_usdc := rnd4 pnl
      triggered_by := position.triggered_by
      result := result }
    process_queue { st with
      positions := derase token_id st.positions
      balance := st.balance + SLOT_SIZE_USDC + pnl
      realized_pnl := st.realized_pnl + pnl
      resolved := resolved :: st.resolved }

/-- `PortfolioManager.get_resolved` (line 211-212): read at most `limit`
(default 50) most recent resolved trades. -/
def mirror_get_resolved (st : MirrorPortfolio) (limit : ℕ := 50) :
    List MirrorResolvedTrade :=
  st.resolved.take limit

/-- One externally triggered portfolio operation: an opened-position
callback, a closed-position callback, or a bare queue drain. -/
inductive MirrorOp where
  | op_open (nickname : String) (pd : PosData)
  | op_close (pd : PosData)
  | op_drain
  deriving Repr, DecidableEq

/-- Apply one operation. -/
def mirrorStep (st : MirrorPortfolio) : MirrorOp → MirrorPortfolio
  | .op_open nickname pd => open_position st nickname pd
  | .op_close pd => close_position_by_token st pd
  | .op_drain => process_queue st

/-- Run a sequence of operations from a given state. -/
def mirrorRun (st : MirrorPortfolio) (ops : List MirrorOp) : MirrorPortfolio :=
  ops.foldl mirrorStep st

/-- All price fields present in a `pos_data` dict lie in [0, 1]. -/
def pdPricesIn01 (pd : PosData) : Bool :=
  (match pd.curPrice with | some c => decide (0 ≤ c ∧ c ≤ 1) | none => true) &&
  (match pd.price with | some p => decide (0 ≤ p ∧ p ≤ 1) | none => true)

/-- An operation whose position dict has all price fields in [0, 1]. -/
def mirrorOpValid : MirrorOp → Bool
  | .op_open _ pd => pdPricesIn01 pd
  | .op_close pd => pdPricesIn01 pd
  | .op_drain => true

/-- Well-formedness of an open mirror position: entry price in [0, 1],
nonnegative shares, and deployed value `entry × shares` at most one slot
plus the 4-decimal rounding slack. -/
def PosOk (p : MirrorPosition) : Prop :=
  0 ≤ p.entry_price ∧ p.entry_price ≤ 1 ∧ 0 ≤ p.shares ∧
  p.entry_price * p.shares ≤ SLOT_SIZE_USDC + 1/20000

/-- Well-formedness of a queued mirror trade: entry price in [0, 1]. -/
def QtOk (qt : MirrorQueuedTrade) : Prop :=
  0 ≤ qt.entry_price ∧ qt.entry_price ≤ 1

/-- The mirror-portfolio invariant: at most 40 open slots; the free
balance can be below zero only by the accumulated share-rounding slack
(at most 1/20000 USDC per resolved trade); all open positions and queued
trades are well formed. -/
def MirrorInv (st : MirrorPortfolio) : Prop :=
  st.positions.length ≤ SLOTS ∧
  -((st.resolved.length : ℚ) / 20000) ≤ st.balance ∧
  (∀ kv ∈ st.positions, PosOk kv.2) ∧
  (∀ qt ∈ st.queue, QtOk qt)

-- ═════════════════════════════════════════════════════════════════════════
-- src/bot/datafeed/portfolio.py
-- ═════════════════════════════════════════════════════════════════════════

/-- `DataFeedPosition` dataclass (src/bot/datafeed/models.py); uuid and
timestamp fields omitted. -/
structure DataFeedPosition where
  market_question : String
  token_id : String
  outcome : String
  entry_price : ℚ
  current_price : ℚ
  shares : ℚ
  usdc_deployed : ℚ
  source_event : String
  fixture_id : ℤ
  deriving Repr, DecidableEq

/-- `ResolvedDFTrade` dataclass (src/bot/datafeed/models.py); timestamp
fields omitted. -/
structure ResolvedDFTrade where
  market_question : String
  outcome : String
  entry_price : ℚ
  exit_price : ℚ
  shares : ℚ
  usdc_deployed : ℚ
  pnl_usdc : ℚ
  source_event : String
  result : String
  deriving Repr, DecidableEq

/-- The fields of `DFOpportunity` consumed by `DataFeedPortfolio.open_position`. -/
structure DFOpportunity where
  market_question : String
  token_id : String
  outcome : String
  market_price : ℚ
  source_event : String
  fixture_id : ℤ
  deriving Repr, DecidableEq

/-- Mutable state of `DataFeedPortfolio` (src/bot/datafeed/portfolio.py). -/
structure DataFeedPortfolio where
  balance : ℚ
  realized_pnl : ℚ
  positions : List (String × DataFeedPosition)
  resolved : List ResolvedDFTrade
  deriving Repr, DecidableEq

/-- Fresh `DataFeedPortfolio` state. -/
def dfInit (starting_balance : ℚ := 20000) : DataFeedPortfolio :=
  { balance := starting_balance, realized_pnl := 0, positions := [], resolved := [] }

/-- `DataFeedPortfolio.open_position` (lines 47-100): no overflow queue —
a full or underfunded portfolio simply skips the opportunity. -/
def df_open_position (st : DataFeedPortfolio) (opp : DFOpportunity) : DataFeedPortfolio :=
  if opp.token_id = "" then st
  else if (dlookup opp.token_id st.positions).isSome then st
  else if SLOTS ≤ st.positions.length ∨ st.balance < SLOT_SIZE_USDC then st
  else
    let entry_price := opp.market_price
    let shares := if 0 < entry_price then SLOT_SIZE_USDC / entry_price else 0
    let pos : DataFeedPosition := {
      market_question := opp.market_question
      token_id := opp.token_id
      outcome := opp.outcome
      entry_price := entry_price
      current_price := entry_price
      shares := rnd4 shares
      usdc_deployed := SLOT_SIZE_USDC
      source_event := opp.source_event
      fixture_id := opp.fixture_id }
    { st with
      positions := dinsert opp.token_id pos st.positions
      balance := st.balance - SLOT_SIZE_USDC }

/-- `DataFeedPortfolio.close_position_by_token` (lines 102-140): pop,
realize P&L, prepend to the resolved history and truncate it to 50. -/
def df_close_position_by_token (st : DataFeedPortfolio) (token_id : String)
    (exit_price : ℚ) : DataFeedPortfolio :=
  match dlookup token_id st.positions with
  | none => st
  | some pos =>
    let pnl := (exit_price - pos.entry_price) * pos.shares
    let result := if 1/100 < pnl then "WIN" else if pnl < -(1/100) then "LOSS" else "PUSH"
    let resolved : ResolvedDFTrade := {
      market_question := pos.market_question
      outcome := pos.outcome
      entry_price := pos.entry_price
      exit_price := exit_price
      shares := pos.shares
      usdc_deployed := pos.usdc_deployed
      pnl_usdc := rnd4 pnl
      source_event := pos.source_event
      result := result }
    let hist := resolved :: st.resolved
    { st with
      positions := derase token_id st.positions
      balance := st.balance + SLOT_SIZE_USDC + pnl
      realized_pnl := st.realized_pnl + pnl
      resolved := if 50 < hist.length then hist.take 50 else hist }

/-- Externally triggered datafeed-portfolio operation. -/
inductive DFOp where
  | df_op_open (opp : DFOpportunity)
  | df_op_close (token_id : String) (exit_price : ℚ)
  deriving Repr, DecidableEq

/-- Apply one datafeed operation. -/
def dfStep (st : DataFeedPortfolio) : DFOp → DataFeedPortfolio
  | .df_op_open opp => df_open_position st opp
  | .df_op_close tid exit => df_close_position_by_token st tid exit

/-- Run a sequence of datafeed operations. -/
def dfRun (st : DataFeedPortfolio) (ops : List DFOp) : DataFeedPortfolio :=
  ops.foldl dfStep st

-- ═════════════════════════════════════════════════════════════════════════
-- src/bot/mirror/address_monitor.py — _process_positions
-- ═════════════════════════════════════════════════════════════════════════

/-- The per-address diff state consulted and written by
`AddressMonitor._process_positions` (fields of `WatchedAddress`,
src/bot/mirror/models.py). -/
structure AddrDiffState where
  is_initialized : Bool
  last_positions : List (String × PosData)
  last_poll_count : ℕ
  last_poll_new : ℕ
  last_poll_closed : ℕ
  deriving Repr, DecidableEq

/-- Fresh `WatchedAddress` diff state (dataclass defaults). -/
def addrInit : AddrDiffState :=
  { is_initialized := false, last_positions := [], last_poll_count := 0,
    last_poll_new := 0, last_poll_closed := 0 }

/-- A synchronous callback invocation made by the polling loop. -/
inductive MirrorCallback where
  | cb_opened (pd : PosData)
  | cb_closed (pd : PosData)
  deriving Repr, DecidableEq

/-- `{p["asset"]: p for p in positions if p.get("asset")}` — build the
token-id-keyed map, skipping entries whose `asset` is missing or empty. -/
def buildPositionMap (positions : List PosData) : List (String × PosData) :=
  positions.foldl
    (fun m p =>
      match p.asset with
      | some a => if a = "" then m else dinsert a p m
      | none => m)
    []

/-- `AddressMonitor._process_positions` (lines 230-283): on the first
successful poll store the baseline and fire no callbacks; afterwards diff
by token-id and fire opened callbacks before closed callbacks. -/
def process_positions (st : AddrDiffState) (positions : List PosData) :
    AddrDiffState × List MirrorCallback :=
  let new_map := buildPositionMap positions
  if st.is_initialized = false then
    ({ is_initialized := true
       last_positions := new_map
       last_poll_count := new_map.length
       last_poll_new := 0
       last_poll_closed := 0 }, [])
  else
    let old_map := st.last_positions
    let opened_ids := (new_map.map Prod.fst).filter (fun tid => (dlookup tid old_map).isNone)
    let closed_ids := (old_map.map Prod.fst).filter (fun tid => (dlookup tid new_map).isNone)
    let opened_cbs := opened_ids.filterMap
      (fun tid => (dlookup tid new_map).map MirrorCallback.cb_opened)
    let closed_cbs := closed_ids.filterMap
      (fun tid => (dlookup tid old_map).map MirrorCallback.cb_closed)
    ({ is_initialized := true
       last_positions := new_map
       last_poll_count := new_map.length
       last_poll_new := opened_ids.length
       last_poll_closed := closed_ids.length }, opened_cbs ++ closed_cbs)

-- ═════════════════════════════════════════════════════════════════════════
-- src/bot/paper_trader.py
-- ═════════════════════════════════════════════════════════════════════════

/-- `TradeOutcome` enum (src/bot/paper_trader.py lines 27-34). -/
inductive TradeOutcome where
  | SUCCESS
  | ABORTED_RISK
  | ABORTED_BALANCE
  | ABORTED_LIQUIDITY
  | ABORTED_SLIPPAGE
  | ABORTED_ARB_EVAPORATED
  | ERROR
  deriving Repr, DecidableEq

/-- The persisted paper-trading state (`logs/paper_state.json`; the
in-memory `self._state` dict mirrors it and every abort or fill rewrites
the file in full). -/
structure PaperState where
  balance_usdc : ℚ
  total_profit_usdc : ℚ
  trades_executed : ℕ
  trades_aborted : ℕ
  opportunities_seen : ℕ
  deriving Repr, DecidableEq

/-- `PaperTrader._load_state` with no persisted file (lines 76-83): fresh
state from the configured starting balance. -/
def paperInit (starting_balance : ℚ) : PaperState :=
  { balance_usdc := starting_balance, total_profit_usdc := 0,
    trades_executed := 0, trades_aborted := 0, opportunities_seen := 0 }

/-- Strategy configuration consumed by `PaperTrader.__init__`. -/
structure PaperCfg where
  max_trade : ℚ
  max_risk : ℚ
  slippage_pct : ℚ
  min_liquidity : ℚ
  deriving Repr, DecidableEq

/-- The live market answers obtained from `PolymarketClient` during one
`execute` call: per-side liquidity and re-fetched best asks (`none`
models a failed fetch). -/
structure LiveInputs where
  yes_liq : ℚ
  no_liq : ℚ
  live_yes : Option ℚ
  live_no : Option ℚ
  deriving Repr, DecidableEq

/-- `PaperTrader._abort` (lines 219-238): bump the abort counter and
persist; balance, profit and the executed counter are untouched. -/
def paper_abort (st : PaperState) : PaperState :=
  { st with trades_aborted := st.trades_aborted + 1 }

/-- `PaperTrader.execute` (lines 91-206): bump `opportunities_seen`, run
the five pre-trade gates in order, and either abort or simulate the fill.
Division only occurs under hypotheses that keep the Python float
divisions defined (`opp.yes_ask`, `opp.no_ask`, live prices nonzero). -/
def paper_execute (cfg : PaperCfg) (st : PaperState) (opp : ArbOpportunity)
    (inp : LiveInputs) : PaperState × TradeOutcome :=
  let st := { st with opportunities_seen := st.opportunities_seen + 1 }
  let total_cost := opp.yes_cost_usdc + opp.no_cost_usdc
  if cfg.max_risk < total_cost then (paper_abort st, .ABORTED_RISK)
  else if st.balance_usdc < total_cost then (paper_abort st, .ABORTED_BALANCE)
  else if inp.yes_liq < cfg.min_liquidity then (paper_abort st, .ABORTED_LIQUIDITY)
  else if inp.no_liq < cfg.min_liquidity then (paper_abort st, .ABORTED_LIQUIDITY)
  else
    match inp.live_yes, inp.live_no with
    | some live_yes, some live_no =>
      let yes_slip := |live_yes - opp.yes_ask| / opp.yes_ask * 100
      let no_slip := |live_no - opp.no_ask| / opp.no_ask * 100
      if cfg.slippage_pct < yes_slip then (paper_abort st, .ABORTED_SLIPPAGE)
      else if cfg.slippage_pct < no_slip then (paper_abort st, .ABORTED_SLIPPAGE)
      else if 1 ≤ live_yes + live_no then (paper_abort st, .ABORTED_ARB_EVAPORATED)
      else
        let shares := min (cfg.max_trade / live_yes)
          (min (cfg.max_trade / live_no) (cfg.max_risk / (live_yes + live_no)))
        let cost := shares * (live_yes + live_no)
        let profit := shares * (1 - live_yes - live_no)
        ({ st with
            balance_usdc := st.balance_usdc - cost + shares
            total_profit_usdc := st.total_profit_usdc + profit
            trades_executed := st.trades_executed + 1 }, .SUCCESS)
    | _, _ => (paper_abort st, .ERROR)

/-- The five integrity-abort outcomes (risk, balance, liquidity,
slippage, arb-evaporated). -/
def isGateAbort : TradeOutcome → Bool
  | .ABORTED_RISK | .ABORTED_BALANCE | .ABORTED_LIQUIDITY
  | .ABORTED_SLIPPAGE | .ABORTED_ARB_EVAPORATED => true
  | _ => false

/-- Run a sequence of `execute` calls (one opportunity plus its live
answers per call). -/
def paperRun (cfg : PaperCfg) (st : PaperState)
    (attempts : List (ArbOpportunity × LiveInputs)) : PaperState :=
  attempts.foldl (fun s a => (paper_execute cfg s a.1 a.2).1) st

/-- Every attempt in the list trips one of the five gates when executed
from the state reached so far. -/
def allGateAborts (cfg : PaperCfg) (st : PaperState) :
    List (ArbOpportunity × LiveInputs) → Prop
  | [] => True
  | a :: rest =>
    isGateAbort (paper_execute cfg st a.1 a.2).2 = true ∧
    allGateAborts cfg (paper_execute cfg st a.1 a.2).1 rest

-- ═════════════════════════════════════════════════════════════════════════
-- src/bot/crypto_arb/crypto_arb_bot.py — VWAP walk and scan health
-- ═════════════════════════════════════════════════════════════════════════

/-- The accumulator loop of `CryptoArbBot._vwap_buy` (lines 433-446):
walk the ask levels spending `remaining` USDC, returning the final
`(remaining, cost, qty)`. -/
def vwap_walk (levels : List (ℚ × ℚ)) (remaining cost qty : ℚ) : ℚ × ℚ × ℚ :=
  match levels with
  | [] => (remaining, cost, qty)
  | (price, vol) :: rest =>
    let lv := price * vol
    if remaining ≤ lv then
      let fq := remaining / price
      (0, cost + fq * price, qty + fq)
    else
      vwap_walk rest (remaining - lv) (cost + lv) (qty + vol)

/-- `CryptoArbBot._vwap_buy`: `(vwap, usdc_filled)`, where `none` models
the Python `float("inf")` returned when no quantity was acquired. -/
def vwap_buy (asks : List (ℚ × ℚ)) (usdc : ℚ) : Option ℚ × ℚ :=
  let w := vwap_walk asks usdc 0 0
  if w.2.2 = 0 then (none, 0) else (some (w.2.1 / w.2.2), usdc - w.1)

/-- The two exchanges scanned by `CryptoArbBot`. -/
inductive Exchange where
  | coinbase
  | kraken
  deriving Repr, DecidableEq

/-- One completed order-book fetch inside `CryptoArbBot._do_scan`: which
exchange it hit and whether it succeeded. -/
structure FetchResult where
  ex : Exchange
  ok : Bool
  deriving Repr, DecidableEq

/-- The health update of one loop iteration in `_do_scan` (lines 246-258):
a failure flips the exchange's flag to `False`; a success leaves it
unchanged. -/
def healthStep (h : Bool × Bool) (r : FetchResult) : Bool × Bool :=
  match r.ex with
  | .coinbase => if r.ok then h else (false, h.2)
  | .kraken => if r.ok then h else (h.1, false)

/-- `_do_scan`'s health accumulation over the completed fetches, starting
from `health_cb = health_kr = True` (lines 217-218). -/
def doScanHealth (results : List FetchResult) : Bool × Bool :=
  results.foldl healthStep (true, true)

/-- Whether at least one fetch against the given exchange succeeded (the
disjunction the specification describes). -/
def anyFetchSuccess (e : Exchange) (results : List FetchResult) : Bool :=
  results.any (fun r => if r.ex = e then r.ok else false)

-- ═════════════════════════════════════════════════════════════════════════
-- src/bot/datafeed/opportunity_detector.py — p_over
-- ═════════════════════════════════════════════════════════════════════════

/-- Python `int()` on a rational: truncation toward zero. -/
def ratTrunc (q : ℚ) : ℤ := if 0 ≤ q then ⌊q⌋ else -⌊-q⌋

/-- Module constant `GOALS_PER_MIN = 2.6 / 90.0`. -/
def GOALS_PER_MIN : ℚ := 13/450

/-- `_poisson_pmf` (lines 43-46). -/
noncomputable def poisson_pmf (k : ℕ) (lam : ℝ) : ℝ :=
  if lam ≤ 0 then (if k = 0 then 1 else 0)
  else Real.exp (-lam) * lam ^ k / (Nat.factorial k)

/-- `p_over(line, current_goals, minutes_remaining)` (lines 49-64); the
line and the remaining minutes are exact rationals, the result is the
real number the float code approximates. -/
noncomputable def p_over (line : ℚ) (current_goals : ℤ) (minutes_remaining : ℚ) : ℝ :=
  let needed_total : ℤ := ratTrunc line + 1
  let needed : ℤ := needed_total - current_goals
  if needed ≤ 0 then 1
  else if minutes_remaining ≤ 0 then 0
  else
    let lam : ℝ := (GOALS_PER_MIN : ℝ) * (minutes_remaining : ℝ)
    let prob_fewer : ℝ := ∑ k in Finset.range needed.toNat, poisson_pmf k lam
    max 0 (min 1 (1 - prob_fewer))

/-- The truncated Poisson cumulative sum `Σ_{k<n} e^{-x} x^k / k!` that
`p_over` evaluates at `x = λ > 0`. -/
noncomputable def poissonCumSum (n : ℕ) (x : ℝ) : ℝ :=
  ∑ k in Finset.range n, Real.exp (-x) * x ^ k / (Nat.factorial k)

-- ═════════════════════════════════════════════════════════════════════════
-- src/bot/monitor.py — _gamma_prescreen
-- ═════════════════════════════════════════════════════════════════════════

/-- The price fields of a Gamma market record consumed by the pre-screen;
`none` models an absent key.  (The Python `float()` parse-error path is
unreachable for well-typed numeric fields.) -/
structure GammaMarket where
  bestAsk : Option ℚ := none
  bestBid : Option ℚ := none
  deriving Repr, DecidableEq

/-- `Monitor._gamma_prescreen` (src/bot/monitor.py lines 114-143), with
`min_profit = min_profit_threshold_pct / 100` and the module constant
`_PRESCREEN_BUFFER = 0.02` folded into the threshold as in `__init__`. -/
def gamma_prescreen (min_profit : ℚ) (market : GammaMarket) : Bool :=
  match market.bestAsk, market.bestBid with
  | none, _ => true
  | some _, none => true
  | some best_ask, some best_bid =>
    let yes_ask := best_ask
    let implied_no_ask := 1 - best_bid
    if ¬(0 < yes_ask ∧ yes_ask < 1) ∨ ¬(0 < implied_no_ask ∧ implied_no_ask < 1) then
      false
    else
      decide (yes_ask + implied_no_ask < 1 - min_profit + 1/50)

/-- The pass condition claimed by the specification: a missing price field
passes by default, otherwise the market passes exactly when the combined
estimate is below the buffered threshold. -/
def specPrescreenPass (min_profit : ℚ) (market : GammaMarket) : Bool :=
  match market.bestAsk, market.bestBid with
  | none, _ => true
  | some _, none => true
  | some best_ask, some best_bid =>
    decide (best_ask + (1 - best_bid) < 1 - min_profit + 1/50)

-- ═════════════════════════════════════════════════════════════════════════
-- Concrete inputs used by witnesses and counterexamples
-- ═════════════════════════════════════════════════════════════════════════

/-- The opportunity produced by the kernel on the concrete hit scenario
`yes_ask = 0.48`, `no_ask = 0.49`, caps 100/200, threshold 0.5%. -/
def arbOpp0 : ArbOpportunity :=
  { market_id := "", market_question := "", yes_token_id := "", no_token_id := ""
    yes_ask := 12/25, no_ask := 49/100, combined_pct := 97
    expected_profit_pct := 300/97, shares := 10000/49
    yes_cost_usdc := 4800/49, no_cost_usdc := 100
    estimated_profit_usdc := 300/49 }

/-- A short distinct token-id for index `i` (used to build concrete
operation traces). -/
def tokName (i : ℕ) : String := String.mk [Char.ofNat (65 + i)]

/-- Mirror-portfolio trace: fill all 40 slots (the first position entered
at price 0.30, the rest at 0.50), then close the first position at price
0.  All price fields lie in [0, 1]. -/
def c2Ops : List MirrorOp :=
  MirrorOp.op_open "w" { asset := some (tokName 0), curPrice := some (3/10) } ::
  ((List.range 39).map (fun i =>
    MirrorOp.op_open "w" { asset := some (tokName (i+1)), curPrice := some (1/2) })) ++
  [MirrorOp.op_close { asset := some (tokName 0), curPrice := some 0, price := some 0 }]

/-- A concrete open datafeed position. -/
def dfPos0 : DataFeedPosition where
  market_question := "m"
  token_id := "A"
  outcome := "Yes"
  entry_price := 1/2
  current_price := 1/2
  shares := 1000
  usdc_deployed := 500
  source_event := "goal"
  fixture_id := 1

/-- A one-position datafeed portfolio used as a concrete close input. -/
def dfPortfolio0 : DataFeedPortfolio where
  balance := 19500
  realized_pnl := 0
  positions := [("A", dfPos0)]
  resolved := []

/-- A concrete open mirror position. -/
def mirrorPos0 : MirrorPosition where
  market_id := "c"
  market_question := "m"
  token_id := "A"
  outcome := "Yes"
  entry_price := 1/2
  current_price := 1/2
  shares := 1000
  usdc_deployed := 500
  triggered_by := "w"

/-- A one-position mirror portfolio used as a concrete close input. -/
def mirrorPortfolio0 : MirrorPortfolio where
  balance := 19500
  realized_pnl := 0
  positions := [("A", mirrorPos0)]
  queue := []
  resolved := []

/-- Mirror-portfolio trace: 51 times open one position at price 0.50 and
close it again at its entry price. -/
def c6Ops : List MirrorOp :=
  (List.range 51).flatMap (fun i =>
    [MirrorOp.op_open "w" { asset := some (tokName i), curPrice := some (1/2) },
     MirrorOp.op_close { asset := some (tokName i), curPrice := some (1/2) }])

-- ═════════════════════════════════════════════════════════════════════════
-- Helper lemmas
-- ═════════════════════════════════════════════════════════════════════════

theorem roundHalfEven_le (y : ℚ) : (roundHalfEven y : ℚ) ≤ y + 1/2 := by
  have h1 : ((⌊y⌋ : ℤ) : ℚ) ≤ y := Int.floor_le y
  have h2 : y < (⌊y⌋ : ℤ) + 1 := Int.lt_floor_add_one y
  simp only [roundHalfEven]
  split_ifs <;> push_cast <;> linarith

theorem le_roundHalfEven (y : ℚ) : y - 1/2 ≤ (roundHalfEven y : ℚ) := by
  have h1 : ((⌊y⌋ : ℤ) : ℚ) ≤ y := Int.floor_le y
  have h2 : y < (⌊y⌋ : ℤ) + 1 := Int.lt_floor_add_one y
  simp only [roundHalfEven]
  split_ifs <;> push_cast <;> linarith

theorem rnd4_le (x : ℚ) : rnd4 x ≤ x + 1/20000 := by
  have h := roundHalfEven_le (x * 10000)
  unfold rnd4
  rw [div_le_iff (by norm_num : (0:ℚ) < 10000)]
  linarith

theorem le_rnd4 (x : ℚ) : x - 1/20000 ≤ rnd4 x := by
  have h := le_roundHalfEven (x * 10000)
  unfold rnd4
  rw [le_div_iff (by norm_num : (0:ℚ) < 10000)]
  linarith

theorem dinsert_length_le (k : String) (v : α) :
    ∀ l : List (String × α), (dinsert k v l).length ≤ l.length + 1 := by
  intro l
  induction l with
  | nil => simp [dinsert]
  | cons hd tl ih =>
    unfold dinsert
    split_ifs
    · simp
    · simpa using Nat.succ_le_succ ih

theorem dinsert_mem {k : String} {v : α} :
    ∀ (l : List (String × α)) (kv : String × α),
      kv ∈ dinsert k v l → kv = (k, v) ∨ kv ∈ l := by
  intro l
  induction l with
  | nil => intro kv h; simp [dinsert] at h; exact Or.inl h
  | cons hd tl ih =>
    intro kv h
    unfold dinsert at h
    split_ifs at h with hk
    · rcases List.mem_cons.mp h with h | h
      · exact Or.inl h
      · exact Or.inr (List.mem_cons_of_mem _ h)
    · rcases List.mem_cons.mp h with h | h
      · exact Or.inr (h ▸ List.mem_cons_self _ _)
      · rcases ih kv h with h' | h'
        · exact Or.inl h'
        · exact Or.inr (List.mem_cons_of_mem _ h')

theorem derase_length_le (k : String) :
    ∀ l : List (String × α), (derase k l).length ≤ l.length := by
  intro l
  induction l with
  | nil => simp [derase]
  | cons hd tl ih =>
    unfold derase
    split_ifs
    · simp
    · simpa using Nat.succ_le_succ ih

theorem derase_mem {k : String} :
    ∀ (l : List (String × α)) (kv : String × α), kv ∈ derase k l → kv ∈ l := by
  intro l
  induction l with
  | nil => intro kv h; simp [derase] at h
  | cons hd tl ih =>
    intro kv h
    unfold derase at h
    split_ifs at h with hk
    · exact List.mem_cons_of_mem _ h
    · rcases List.mem_cons.mp h with h | h
      · exact h ▸ List.mem_cons_self _ _
      · exact List.mem_cons_of_mem _ (ih kv h)

theorem dlookup_mem {k : String} :
    ∀ (l : List (String × α)) (v : α), dlookup k l = some v → (k, v) ∈ l := by
  intro l
  induction l with
  | nil => intro v h; simp [dlookup] at h
  | cons hd tl ih =>
    intro v h
    unfold dlookup at h
    split_ifs at h with hk
    · cases h; exact hk ▸ List.mem_cons_self _ _
    · exact List.mem_cons_of_mem _ (ih v h)

-- ═════════════════════════════════════════════════════════════════════════
-- C1 — arbitrage kernel sizing bounds
-- ═════════════════════════════════════════════════════════════════════════

/-- C1: for every `ArbOpportunity` returned by `find_arb_opportunity`
(with `yes_ask > 0`, `no_ask > 0`, `max_trade_size_usdc > 0`,
`max_risk_per_trade_usdc > 0`), the combined ask is below 1, each side's
cost respects the per-side cap, the total cost respects the risk cap, and
the share count is the minimum of the three limits. -/
theorem find_arb_opportunity_bounds
    (market : MarketIds) (yes_ask no_ask cap risk min_pct : ℚ) (opp : ArbOpportunity)
    (hy : 0 < yes_ask) (hn : 0 < no_ask) (hc : 0 < cap) (hr : 0 < risk)
    (h : find_arb_opportunity market yes_ask no_ask cap risk min_pct = some opp) :
    opp.yes_ask + opp.no_ask < 1 ∧
    opp.shares * opp.yes_ask ≤ cap ∧
    opp.shares * opp.no_ask ≤ cap ∧
    opp.shares * (opp.yes_ask + opp.no_ask) ≤ risk ∧
    opp.shares = min (cap / yes_ask) (min (cap / no_ask) (risk / (yes_ask + no_ask))) := by
  unfold find_arb_opportunity at h
  simp only at h
  split_ifs at h with h1 h2
  have hcomb : 0 < yes_ask + no_ask := by linarith
  cases h
  push_neg at h1
  refine ⟨h1, ?_, ?_, ?_, rfl⟩
  · have hs : min (cap / yes_ask) (min (cap / no_ask) (risk / (yes_ask + no_ask))) ≤
        cap / yes_ask := min_le_left _ _
    calc min (cap / yes_ask) (min (cap / no_ask) (risk / (yes_ask + no_ask))) * yes_ask
        ≤ cap / yes_ask * yes_ask := by
          exact mul_le_mul_of_nonneg_right hs (le_of_lt hy)
      _ = cap := div_mul_cancel₀ cap (ne_of_gt hy)
  · have hs : min (cap / yes_ask) (min (cap / no_ask) (risk / (yes_ask + no_ask))) ≤
        cap / no_ask := le_trans (min_le_right _ _) (min_le_left _ _)
    calc min (cap / yes_ask) (min (cap / no_ask) (risk / (yes_ask + no_ask))) * no_ask
        ≤ cap / no_ask * no_ask := mul_le_mul_of_nonneg_right hs (le_of_lt hn)
      _ = cap := div_mul_cancel₀ cap (ne_of_gt hn)
  · have hs : min (cap / yes_ask) (min (cap / no_ask) (risk / (yes_ask + no_ask))) ≤
        risk / (yes_ask + no_ask) := le_trans (min_le_right _ _) (min_le_right _ _)
    calc min (cap / yes_ask) (min (cap / no_ask) (risk / (yes_ask + no_ask))) *
          (yes_ask + no_ask)
        ≤ risk / (yes_ask + no_ask) * (yes_ask + no_ask) :=
          mul_le_mul_of_nonneg_right hs (le_of_lt hcomb)
      _ = risk := div_mul_cancel₀ risk (ne_of_gt hcomb)

/-- C1 witness: the concrete kernel hit `yes_ask = 0.48`, `no_ask = 0.49`,
per-side cap 100, risk cap 200, threshold 0.5%. -/
theorem find_arb_opportunity_bounds_check :
    arbOpp0.yes_ask + arbOpp0.no_ask < 1 ∧
    arbOpp0.shares * arbOpp0.yes_ask ≤ 100 ∧
    arbOpp0.shares * arbOpp0.no_ask ≤ 100 ∧
    arbOpp0.shares * (arbOpp0.yes_ask + arbOpp0.no_ask) ≤ 200 ∧
    arbOpp0.shares = min ((100:ℚ) / (48/100))
      (min ((100:ℚ) / (49/100)) ((200:ℚ) / (48/100 + 49/100))) :=
  find_arb_opportunity_bounds ⟨"", "", "", ""⟩ (48/100) (49/100) 100 200 (1/2) arbOpp0
    (by norm_num) (by norm_num) (by norm_num) (by norm_num)
    (by rw [find_arb_opportunity, arbOpp0]; norm_num [min_def])

-- ═════════════════════════════════════════════════════════════════════════
-- C3 — address monitor baseline poll
-- ═════════════════════════════════════════════════════════════════════════

/-- C3: the first successful poll (uninitialized state) stores the fetched
map as baseline, marks the address initialized, zeroes the per-poll diff
counters, and fires no callbacks, regardless of the fetched positions. -/
theorem process_positions_baseline (st : AddrDiffState) (positions : List PosData)
    (h : st.is_initialized = false) :
    (process_positions st positions).1.last_positions = buildPositionMap positions ∧
    (process_positions st positions).1.is_initialized = true ∧
    (process_positions st positions).1.last_poll_new = 0 ∧
    (process_positions st positions).1.last_poll_closed = 0 ∧
    (process_positions st positions).2 = [] := by
  unfold process_positions
  simp [h]

/-- C3 witness: a fresh address whose first poll returns three positions. -/
theorem process_positions_baseline_check :
    (process_positions addrInit
      [{ asset := some "A", curPrice := some (1/2) },
       { asset := some "B", curPrice := some (3/10) },
       { asset := some "C", curPrice := some (7/10) }]).1.last_positions =
      buildPositionMap
        [{ asset := some "A", curPrice := some (1/2) },
         { asset := some "B", curPrice := some (3/10) },
         { asset := some "C", curPrice := some (7/10) }] ∧
    (process_positions addrInit
      [{ asset := some "A", curPrice := some (1/2) },
       { asset := some "B", curPrice := some (3/10) },
       { asset := some "C", curPrice := some (7/10) }]).1.is_initialized = true ∧
    (process_positions addrInit
      [{ asset := some "A", curPrice := some (1/2) },
       { asset := some "B", curPrice := some (3/10) },
       { asset := some "C", curPrice := some (7/10) }]).1.last_poll_new = 0 ∧
    (process_positions addrInit
      [{ asset := some "A", curPrice := some (1/2) },
       { asset := some "B", curPrice := some (3/10) },
       { asset := some "C", curPrice := some (7/10) }]).1.last_poll_closed = 0 ∧
    (process_positions addrInit
      [{ asset := some "A", curPrice := some (1/2) },
       { asset := some "B", curPrice := some (3/10) },
       { asset := some "C", curPrice := some (7/10) }]).2 = [] :=
  process_positions_baseline addrInit
    [{ asset := some "A", curPrice := some (1/2) },
     { asset := some "B", curPrice := some (3/10) },
     { asset := some "C", curPrice := some (7/10) }] rfl

-- ═════════════════════════════════════════════════════════════════════════
-- C4 — paper trader abort leaves only counters changed
-- ═════════════════════════════════════════════════════════════════════════

theorem paper_gate_abort_fields (cfg : PaperCfg) (st : PaperState)
    (opp : ArbOpportunity) (inp : LiveInputs)
    (h : isGateAbort (paper_execute cfg st opp inp).2 = true) :
    (paper_execute cfg st opp inp).1.balance_usdc = st.balance_usdc ∧
    (paper_execute cfg st opp inp).1.total_profit_usdc = st.total_profit_usdc ∧
    (paper_execute cfg st opp inp).1.trades_executed = st.trades_executed ∧
    (paper_execute cfg st opp inp).1.opportunities_seen = st.opportunities_seen + 1 ∧
    (paper_execute cfg st opp inp).1.trades_aborted = st.trades_aborted + 1 := by
  unfold paper_execute paper_abort at *
  cases hy : inp.live_yes <;> cases hn : inp.live_no <;>
    simp only [hy, hn] at h ⊢ <;>
    split_ifs at h ⊢ <;> simp_all [isGateAbort]

theorem paperRun_all_aborts (cfg : PaperCfg) :
    ∀ (attempts : List (ArbOpportunity × LiveInputs)) (st : PaperState),
      allGateAborts cfg st attempts →
      (paperRun cfg st attempts).balance_usdc = st.balance_usdc ∧
      (paperRun cfg st attempts).total_profit_usdc = st.total_profit_usdc ∧
      (paperRun cfg st attempts).trades_executed = st.trades_executed ∧
      (paperRun cfg st attempts).opportunities_seen =
        st.opportunities_seen + attempts.length ∧
      (paperRun cfg st attempts).trades_aborted = st.trades_aborted + attempts.length := by
  intro attempts
  induction attempts with
  | nil => intro st _; simp [paperRun]
  | cons a rest ih =>
    intro st h
    obtain ⟨h1, h2⟩ := h
    have hstep := paper_gate_abort_fields cfg st a.1 a.2 h1
    have hrest := ih ((paper_execute cfg st a.1 a.2).1) h2
    have hrun : paperRun cfg st (a :: rest) =
        paperRun cfg ((paper_execute cfg st a.1 a.2).1) rest := by
      simp [paperRun]
    rw [hrun]
    refine ⟨?_, ?_, ?_, ?_, ?_⟩ <;>
      simp only [hrest.1, hrest.2.1, hrest.2.2.1, hrest.2.2.2.1, hrest.2.2.2.2,
        hstep.1, hstep.2.1, hstep.2.2.1, hstep.2.2.2.1, hstep.2.2.2.2,
        List.length_cons] <;> omega

/-- C4: when `PaperTrader.execute` aborts on any of the five pre-trade
gates, the persisted state keeps its balance, cumulative profit and
executed-trade counter, while `opportunities_seen` and `trades_aborted`
each grow by exactly one — and therefore by exactly the number of attempts
across any run of consecutive aborted attempts. -/
theorem paper_trader_abort_only_counters :
    (∀ (cfg : PaperCfg) (st : PaperState) (opp : ArbOpportunity) (inp : LiveInputs),
      isGateAbort (paper_execute cfg st opp inp).2 = true →
      (paper_execute cfg st opp inp).1.balance_usdc = st.balance_usdc ∧
      (paper_execute cfg st opp inp).1.total_profit_usdc = st.total_profit_usdc ∧
      (paper_execute cfg st opp inp).1.trades_executed = st.trades_executed ∧
      (paper_execute cfg st opp inp).1.opportunities_seen = st.opportunities_seen + 1 ∧
      (paper_execute cfg st opp inp).1.trades_aborted = st.trades_aborted + 1) ∧
    (∀ (cfg : PaperCfg) (st : PaperState) (attempts : List (ArbOpportunity × LiveInputs)),
      allGateAborts cfg st attempts →
      (paperRun cfg st attempts).balance_usdc = st.balance_usdc ∧
      (paperRun cfg st attempts).total_profit_usdc = st.total_profit_usdc ∧
      (paperRun cfg st attempts).trades_executed = st.trades_executed ∧
      (paperRun cfg st attempts).opportunities_seen =
        st.opportunities_seen + attempts.length ∧
      (paperRun cfg st attempts).trades_aborted = st.trades_aborted + attempts.length) :=
  ⟨fun cfg st opp inp h => paper_gate_abort_fields cfg st opp inp h,
   fun cfg st attempts h => paperRun_all_aborts cfg attempts st h⟩

/-- C4 witness: a risk-gate abort (total cost ≈ 197.96 over a 50 USDC risk
cap) from a fresh 10,000 USDC paper state. -/
theorem paper_trader_abort_only_counters_check :
    (paper_execute ⟨100, 50, 1, 100⟩ (paperInit 10000) arbOpp0
        ⟨0, 0, none, none⟩).1.balance_usdc = (paperInit 10000).balance_usdc ∧
    (paper_execute ⟨100, 50, 1, 100⟩ (paperInit 10000) arbOpp0
        ⟨0, 0, none, none⟩).1.total_profit_usdc = (paperInit 10000).total_profit_usdc ∧
    (paper_execute ⟨100, 50, 1, 100⟩ (paperInit 10000) arbOpp0
        ⟨0, 0, none, none⟩).1.trades_executed = (paperInit 10000).trades_executed ∧
    (paper_execute ⟨100, 50, 1, 100⟩ (paperInit 10000) arbOpp0
        ⟨0, 0, none, none⟩).1.opportunities_seen =
      (paperInit 10000).opportunities_seen + 1 ∧
    (paper_execute ⟨100, 50, 1, 100⟩ (paperInit 10000) arbOpp0
        ⟨0, 0, none, none⟩).1.trades_aborted = (paperInit 10000).trades_aborted + 1 :=
  paper_trader_abort_only_counters.1 ⟨100, 50, 1, 100⟩ (paperInit 10000) arbOpp0
    ⟨0, 0, none, none⟩ (of_decide_eq_true (by with_unfolding_all rfl))

-- ═════════════════════════════════════════════════════════════════════════
-- C10 — paper balance accounting invariant
-- ═════════════════════════════════════════════════════════════════════════

theorem paper_step_balance_profit (cfg : PaperCfg) (st : PaperState)
    (opp : ArbOpportunity) (inp : LiveInputs) :
    (paper_execute cfg st opp inp).1.balance_usdc -
      (paper_execute cfg st opp inp).1.total_profit_usdc =
    st.balance_usdc - st.total_profit_usdc := by
  unfold paper_execute paper_abort
  cases hy : inp.live_yes <;> cases hn : inp.live_no <;> simp only [hy, hn] <;>
    split_ifs <;> simp <;> ring

theorem paperRun_balance_profit (cfg : PaperCfg) :
    ∀ (attempts : List (ArbOpportunity × LiveInputs)) (st : PaperState),
      (paperRun cfg st attempts).balance_usdc -
        (paperRun cfg st attempts).total_profit_usdc =
      st.balance_usdc - st.total_profit_usdc := by
  intro attempts
  induction attempts with
  | nil => intro st; simp [paperRun]
  | cons a rest ih =>
    intro st
    have hrun : paperRun cfg st (a :: rest) =
        paperRun cfg ((paper_execute cfg st a.1 a.2).1) rest := by
      simp [paperRun]
    rw [hrun, ih]
    exact paper_step_balance_profit cfg st a.1 a.2

/-- C10: starting from a fresh paper state, any sequence of `execute`
calls preserves `balance_usdc = starting_balance + total_profit_usdc`:
each fill moves the balance by exactly the recorded profit and aborts
leave it unchanged. -/
theorem paper_balance_eq_start_plus_profit (cfg : PaperCfg) (starting_balance : ℚ)
    (attempts : List (ArbOpportunity × LiveInputs)) :
    (paperRun cfg (paperInit starting_balance) attempts).balance_usdc =
      starting_balance +
        (paperRun cfg (paperInit starting_balance) attempts).total_profit_usdc := by
  have h := paperRun_balance_profit cfg attempts (paperInit starting_balance)
  have h0 : (paperInit starting_balance).balance_usdc = starting_balance := rfl
  have h1 : (paperInit starting_balance).total_profit_usdc = 0 := rfl
  rw [h0, h1] at h
  linarith

-- ═════════════════════════════════════════════════════════════════════════
-- C5 — scan health is the conjunction, not the disjunction, of fetches
-- ═════════════════════════════════════════════════════════════════════════

/-- C5 counterexample: on a scan where one coinbase fetch failed and one
succeeded, the bot reports coinbase unhealthy even though the OR of its
per-pair fetch successes is true. -/
theorem doScanHealth_not_or_of_successes :
    (doScanHealth [⟨Exchange.coinbase, false⟩, ⟨Exchange.coinbase, true⟩]).1 = false ∧
    anyFetchSuccess Exchange.coinbase
      [⟨Exchange.coinbase, false⟩, ⟨Exchange.coinbase, true⟩] = true := by
  decide

theorem healthStep_foldl_fst :
    ∀ (rs : List FetchResult) (acc : Bool × Bool),
      (rs.foldl healthStep acc).1 =
        (acc.1 && rs.all (fun r => if r.ex = Exchange.coinbase then r.ok else true)) := by
  intro rs
  induction rs with
  | nil => intro acc; simp
  | cons r rest ih =>
    intro acc
    rw [List.foldl_cons, ih]
    cases hex : r.ex <;> cases hok : r.ok <;>
      simp [healthStep, hex, hok, Bool.and_assoc]

theorem healthStep_foldl_snd :
    ∀ (rs : List FetchResult) (acc : Bool × Bool),
      (rs.foldl healthStep acc).2 =
        (acc.2 && rs.all (fun r => if r.ex = Exchange.kraken then r.ok else true)) := by
  intro rs
  induction rs with
  | nil => intro acc; simp
  | cons r rest ih =>
    intro acc
    rw [List.foldl_cons, ih]
    cases hex : r.ex <;> cases hok : r.ok <;>
      simp [healthStep, hex, hok, Bool.and_assoc]

/-- C5 amended: after a scan, each exchange's reported health flag is the
conjunction of that exchange's per-pair fetch outcomes — the exchange is
reported healthy exactly when none of its pair fetches failed. -/
theorem doScanHealth_iff_no_failure (rs : List FetchResult) :
    ((doScanHealth rs).1 = true ↔
      ∀ r ∈ rs, r.ex = Exchange.coinbase → r.ok = true) ∧
    ((doScanHealth rs).2 = true ↔
      ∀ r ∈ rs, r.ex = Exchange.kraken → r.ok = true) := by
  constructor
  · rw [doScanHealth, healthStep_foldl_fst rs (true, true)]
    simp only [Bool.true_and, List.all_eq_true]
    constructor
    · intro h r hr hex
      have := h r hr
      simp [hex] at this
      exact this
    · intro h r hr
      by_cases hex : r.ex = Exchange.coinbase
      · simp [hex, h r hr hex]
      · simp [hex]
  · rw [doScanHealth, healthStep_foldl_snd rs (true, true)]
    simp only [Bool.true_and, List.all_eq_true]
    constructor
    · intro h r hr hex
      have := h r hr
      simp [hex] at this
      exact this
    · intro h r hr
      by_cases hex : r.ex = Exchange.kraken
      · simp [hex, h r hr hex]
      · simp [hex]

/-- C5 witness: a mixed scan outcome (coinbase fetch succeeded, kraken
fetch failed). -/
theorem doScanHealth_iff_no_failure_check :
    ((doScanHealth [⟨Exchange.coinbase, true⟩, ⟨Exchange.kraken, false⟩]).1 = true ↔
      ∀ r ∈ [FetchResult.mk Exchange.coinbase true, FetchResult.mk Exchange.kraken false],
        r.ex = Exchange.coinbase → r.ok = true) ∧
    ((doScanHealth [⟨Exchange.coinbase, true⟩, ⟨Exchange.kraken, false⟩]).2 = true ↔
      ∀ r ∈ [FetchResult.mk Exchange.coinbase true, FetchResult.mk Exchange.kraken false],
        r.ex = Exchange.kraken → r.ok = true) :=
  doScanHealth_iff_no_failure
    [⟨Exchange.coinbase, true⟩, ⟨Exchange.kraken, false⟩]

-- ═════════════════════════════════════════════════════════════════════════
-- C9 — Gamma pre-screen also gates on the (0, 1) price range
-- ═════════════════════════════════════════════════════════════════════════

/-- C9 counterexample: a market with `bestAsk = 0`, `bestBid = 0.5` has a
combined estimate of 0.5, below the buffered threshold, yet the code
rejects it in the `0 < price < 1` range gate (claim says it passes). -/
theorem gamma_prescreen_not_estimate_only :
    gamma_prescreen (1/200) ⟨some 0, some (1/2)⟩ = false ∧
    specPrescreenPass (1/200) ⟨some 0, some (1/2)⟩ = true := by
  constructor
  · with_unfolding_all rfl
  · with_unfolding_all rfl

/-- C9 amended: the pre-screen passes a market exactly when a price field
is absent, or when both the YES ask and the implied NO ask lie strictly
inside (0, 1) and their sum is below `1 − min_profit_pct + 0.02`. -/
theorem gamma_prescreen_iff (min_profit : ℚ) (m : GammaMarket) :
    gamma_prescreen min_profit m = true ↔
      (m.bestAsk = none ∨ m.bestBid = none ∨
       ∃ ask bid, m.bestAsk = some ask ∧ m.bestBid = some bid ∧
         0 < ask ∧ ask < 1 ∧ 0 < 1 - bid ∧ 1 - bid < 1 ∧
         ask + (1 - bid) < 1 - min_profit + 1/50) := by
  cases ha : m.bestAsk with
  | none => simp [gamma_prescreen, ha]
  | some ask =>
    cases hb : m.bestBid with
    | none => simp [gamma_prescreen, ha, hb]
    | some bid =>
      simp only [gamma_prescreen, ha, hb, reduceCtorEq, false_or, Option.some.injEq]
      split_ifs with hrange
      · constructor
        · intro h; exact h.elim
        · rintro ⟨a, b, rfl, rfl, h1, h2, h3, h4, -⟩
          rcases hrange with h | h
          · exact absurd ⟨h1, h2⟩ h
          · exact absurd ⟨h3, h4⟩ h
      · rw [not_or, not_not, not_not] at hrange
        obtain ⟨hr1, hr2⟩ := hrange
        rw [decide_eq_true_eq]
        constructor
        · intro h
          exact ⟨ask, bid, rfl, rfl, hr1.1, hr1.2, hr2.1, hr2.2, h⟩
        · rintro ⟨a, b, rfl, rfl, -, -, -, -, h5⟩
          exact h5

/-- C9 witness: a market with both prices present inside (0, 1) and a
combined estimate below the threshold. -/
theorem gamma_prescreen_iff_check :
    gamma_prescreen (1/200) ⟨some (48/100), some (51/100)⟩ = true ↔
      ((⟨some (48/100), some (51/100)⟩ : GammaMarket).bestAsk = none ∨
       (⟨some (48/100), some (51/100)⟩ : GammaMarket).bestBid = none ∨
       ∃ ask bid, (⟨some (48/100), some (51/100)⟩ : GammaMarket).bestAsk = some ask ∧
         (⟨some (48/100), some (51/100)⟩ : GammaMarket).bestBid = some bid ∧
         0 < ask ∧ ask < 1 ∧ 0 < 1 - bid ∧ 1 - bid < 1 ∧
         ask + (1 - bid) < 1 - 1/200 + 1/50) :=
  gamma_prescreen_iff (1/200) ⟨some (48/100), some (51/100)⟩

-- ═════════════════════════════════════════════════════════════════════════
-- C7 — VWAP buy accounting
-- ═════════════════════════════════════════════════════════════════════════

theorem vwap_walk_cost_add_remaining :
    ∀ (levels : List (ℚ × ℚ)) (r c q : ℚ), (∀ l ∈ levels, 0 < l.1) →
      (vwap_walk levels r c q).2.1 + (vwap_walk levels r c q).1 = c + r := by
  intro levels
  induction levels with
  | nil => intro r c q _; simp [vwap_walk]
  | cons hd tl ih =>
    intro r c q hpos
    obtain ⟨price, vol⟩ := hd
    have hp : 0 < price := (hpos (price, vol) (List.mem_cons_self _ _))
    unfold vwap_walk
    dsimp only
    split_ifs with hle
    · have : r / price * price = r := div_mul_cancel₀ r (ne_of_gt hp)
      simp only []
      linarith
    · rw [ih (r - price * vol) (c + price * vol) (q + vol)
        (fun l hl => hpos l (List.mem_cons_of_mem _ hl))]
      ring

theorem vwap_walk_qty_mono :
    ∀ (levels : List (ℚ × ℚ)) (r c q : ℚ),
      (∀ l ∈ levels, 0 < l.1 ∧ 0 < l.2) → 0 ≤ r →
      q ≤ (vwap_walk levels r c q).2.2 := by
  intro levels
  induction levels with
  | nil => intro r c q _ _; simp [vwap_walk]
  | cons hd tl ih =>
    intro r c q hpos hr
    obtain ⟨price, vol⟩ := hd
    have hp := (hpos (price, vol) (List.mem_cons_self _ _)).1
    have hv := (hpos (price, vol) (List.mem_cons_self _ _)).2
    unfold vwap_walk
    dsimp only
    split_ifs with hle
    · have : 0 ≤ r / price := div_nonneg hr (le_of_lt hp)
      simp only []
      linarith
    · push_neg at hle
      have hrec := ih (r - price * vol) (c + price * vol) (q + vol)
        (fun l hl => hpos l (List.mem_cons_of_mem _ hl)) (by linarith)
      linarith

theorem vwap_walk_qty_stagnant :
    ∀ (levels : List (ℚ × ℚ)) (r c q : ℚ),
      (∀ l ∈ levels, 0 < l.1 ∧ 0 < l.2) → 0 ≤ r →
      (vwap_walk levels r c q).2.2 = q →
      (vwap_walk levels r c q).1 = r ∧ (vwap_walk levels r c q).2.1 = c := by
  intro levels
  induction levels with
  | nil => intro r c q _ _ _; simp [vwap_walk]
  | cons hd tl ih =>
    intro r c q hpos hr hq
    obtain ⟨price, vol⟩ := hd
    have hp := (hpos (price, vol) (List.mem_cons_self _ _)).1
    have hv := (hpos (price, vol) (List.mem_cons_self _ _)).2
    unfold vwap_walk at hq ⊢
    dsimp only at hq ⊢
    split_ifs at hq ⊢ with hle
    · have hfq : r / price = 0 := by linarith
      have hr0 : r = 0 := by
        have := div_eq_zero_iff.mp hfq
        rcases this with h | h
        · exact h
        · exact absurd h (ne_of_gt hp)
      constructor
      · simp [hr0]
      · simp [hfq]
    · push_neg at hle
      have hrec := vwap_walk_qty_mono tl (r - price * vol) (c + price * vol) (q + vol)
        (fun l hl => hpos l (List.mem_cons_of_mem _ hl)) (by linarith)
      rw [hq] at hrec
      linarith

/-- C7: for positive ask levels and `usdc ≥ 0`, `_vwap_buy` returns a
filled amount equal to `usdc − remaining` and exactly equal to the cost
accumulated over the walked levels; the VWAP is `cost/qty` when any
quantity was acquired, and (+∞, 0) is returned on an empty book. -/
theorem vwap_buy_exact (levels : List (ℚ × ℚ)) (usdc : ℚ)
    (hpos : ∀ l ∈ levels, 0 < l.1 ∧ 0 < l.2) (husdc : 0 ≤ usdc) :
    (vwap_buy levels usdc).2 = usdc - (vwap_walk levels usdc 0 0).1 ∧
    (vwap_buy levels usdc).2 = (vwap_walk levels usdc 0 0).2.1 ∧
    (0 < (vwap_walk levels usdc 0 0).2.2 →
      (vwap_buy levels usdc).1 =
        some ((vwap_walk levels usdc 0 0).2.1 / (vwap_walk levels usdc 0 0).2.2)) ∧
    (levels = [] → vwap_buy levels usdc = (none, 0)) := by
  have hsum := vwap_walk_cost_add_remaining levels usdc 0 0 (fun l hl => (hpos l hl).1)
  have hvb : vwap_buy levels usdc =
      if (vwap_walk levels usdc 0 0).2.2 = 0 then ((none : Option ℚ), (0 : ℚ))
      else (some ((vwap_walk levels usdc 0 0).2.1 / (vwap_walk levels usdc 0 0).2.2),
        usdc - (vwap_walk levels usdc 0 0).1) := rfl
  by_cases hq : (vwap_walk levels usdc 0 0).2.2 = 0
  · have hstag := vwap_walk_qty_stagnant levels usdc 0 0 hpos husdc hq
    rw [hvb, if_pos hq]
    refine ⟨?_, ?_, ?_, fun _ => rfl⟩
    · dsimp only
      rw [hstag.1]
      ring
    · dsimp only
      rw [hstag.2]
    · intro h
      rw [hq] at h
      exact absurd h (lt_irrefl 0)
  · rw [hvb, if_neg hq]
    refine ⟨rfl, ?_, fun _ => rfl, ?_⟩
    · dsimp only
      linarith
    · intro hnil
      subst hnil
      simp [vwap_walk] at hq

/-- C7 witness: one ask level `(price 0.5, size 100)` and a 30 USDC
budget. -/
theorem vwap_buy_exact_check :
    (vwap_buy [((1:ℚ)/2, 100)] 30).2 = 30 - (vwap_walk [((1:ℚ)/2, 100)] 30 0 0).1 ∧
    (vwap_buy [((1:ℚ)/2, 100)] 30).2 = (vwap_walk [((1:ℚ)/2, 100)] 30 0 0).2.1 ∧
    (0 < (vwap_walk [((1:ℚ)/2, 100)] 30 0 0).2.2 →
      (vwap_buy [((1:ℚ)/2, 100)] 30).1 =
        some ((vwap_walk [((1:ℚ)/2, 100)] 30 0 0).2.1 /
          (vwap_walk [((1:ℚ)/2, 100)] 30 0 0).2.2)) ∧
    ([((1:ℚ)/2, 100)] = ([] : List (ℚ × ℚ)) → vwap_buy [((1:ℚ)/2, 100)] 30 = (none, 0)) :=
  vwap_buy_exact [((1:ℚ)/2, 100)] 30
    (by intro l hl; simp at hl; rw [hl]; norm_num) (by norm_num)

-- ═════════════════════════════════════════════════════════════════════════
-- C6 — resolved-trade history cap
-- ═════════════════════════════════════════════════════════════════════════

/-- C6 counterexample: after 51 open/close pairs the mirror portfolio's
stored resolved history holds 51 entries — `close_position_by_token` in
src/bot/mirror/portfolio.py prepends without truncating (only reads via
`get_resolved` are capped at 50). -/
theorem mirror_resolved_history_uncapped :
    (mirrorRun (mirrorInit STARTING_BALANCE) c6Ops).resolved.length = 51 ∧
    50 < (mirrorRun (mirrorInit STARTING_BALANCE) c6Ops).resolved.length :=
  of_decide_eq_true (by with_unfolding_all rfl)

theorem process_queue_resolved (st : MirrorPortfolio) :
    (process_queue st).resolved = st.resolved := rfl

theorem cap_eq_take (r : α) (l : List α) :
    (if 50 < (r :: l).length then (r :: l).take 50 else r :: l) = (r :: l).take 50 := by
  split_ifs with h
  · rfl
  · push_neg at h
    exact (List.take_of_length_le h).symm

theorem length_cap_le (r : α) (l : List α) :
    (if 50 < (r :: l).length then (r :: l).take 50 else r :: l).length ≤ 50 := by
  split_ifs with h1
  · simpa using List.length_take_le 50 _
  · omega

theorem dfStep_resolved_le (st : DataFeedPortfolio) (op : DFOp)
    (h : st.resolved.length ≤ 50) : (dfStep st op).resolved.length ≤ 50 := by
  cases op with
  | df_op_open opp =>
    show (df_open_position st opp).resolved.length ≤ 50
    unfold df_open_position
    split_ifs <;> exact h
  | df_op_close tid exit =>
    show (df_close_position_by_token st tid exit).resolved.length ≤ 50
    cases hl : dlookup tid st.positions with
    | none =>
      simp only [df_close_position_by_token, hl]
      exact h
    | some pos =>
      simp only [df_close_position_by_token, hl]
      exact length_cap_le _ _

theorem dfRun_resolved_le :
    ∀ (ops : List DFOp) (st : DataFeedPortfolio), st.resolved.length ≤ 50 →
      (dfRun st ops).resolved.length ≤ 50 := by
  intro ops
  induction ops with
  | nil => intro st h; exact h
  | cons op rest ih =>
    intro st h
    have : dfRun st (op :: rest) = dfRun (dfStep st op) rest := by simp [dfRun]
    rw [this]
    exact ih (dfStep st op) (dfStep_resolved_le st op h)

/-- C6 amended: resolved histories are most-recent-first — every close
prepends the new trade — and the datafeed portfolio truncates its stored
history to at most 50 entries; the mirror portfolio's stored history is
unbounded and only its `get_resolved` reads are capped at 50. -/
theorem resolved_history_cap :
    (∀ (sb : ℚ) (ops : List DFOp), (dfRun (dfInit sb) ops).resolved.length ≤ 50) ∧
    (∀ (st : DataFeedPortfolio) (tid : String) (exit_price : ℚ) (pos : DataFeedPosition),
      dlookup tid st.positions = some pos →
      ∃ r, (df_close_position_by_token st tid exit_price).resolved =
        (r :: st.resolved).take 50) ∧
    (∀ (st : MirrorPortfolio) (pd : PosData) (pos : MirrorPosition),
      dlookup (posTokenId pd) st.positions = some pos →
      ∃ r, (close_position_by_token st pd).resolved = r :: st.resolved) ∧
    (∀ st : MirrorPortfolio, (mirror_get_resolved st).length ≤ 50) := by
  refine ⟨?_, ?_, ?_, ?_⟩
  · intro sb ops
    exact dfRun_resolved_le ops (dfInit sb) (by simp [dfInit])
  · intro st tid exit_price pos hl
    simp only [df_close_position_by_token, hl]
    exact ⟨_, cap_eq_take _ _⟩
  · intro st pd pos hl
    simp only [close_position_by_token, hl]
    exact ⟨_, process_queue_resolved _⟩
  · intro st
    unfold mirror_get_resolved
    simpa using List.length_take_le 50 st.resolved

/-- C6 witness: one-position datafeed and mirror portfolios closed at
concrete prices, plus the empty run and an arbitrary read. -/
theorem resolved_history_cap_check :
    (dfRun (dfInit 20000) []).resolved.length ≤ 50 ∧
    (∃ r, (df_close_position_by_token dfPortfolio0 "A" (3/4)).resolved =
      (r :: dfPortfolio0.resolved).take 50) ∧
    (∃ r, (close_position_by_token mirrorPortfolio0
        { asset := some "A", curPrice := some (3/4) }).resolved =
      r :: mirrorPortfolio0.resolved) ∧
    (mirror_get_resolved (mirrorInit STARTING_BALANCE)).length ≤ 50 :=
  ⟨resolved_history_cap.1 20000 [],
   resolved_history_cap.2.1 dfPortfolio0 "A" (3/4) dfPos0
     (of_decide_eq_true (by with_unfolding_all rfl)),
   resolved_history_cap.2.2.1 mirrorPortfolio0
     { asset := some "A", curPrice := some (3/4) } mirrorPos0
     (of_decide_eq_true (by with_unfolding_all rfl)),
   resolved_history_cap.2.2.2 (mirrorInit STARTING_BALANCE)⟩

-- ═════════════════════════════════════════════════════════════════════════
-- C2 — mirror portfolio reachable-state invariant
-- ═════════════════════════════════════════════════════════════════════════

theorem rnd4_zero : rnd4 0 = 0 := of_decide_eq_true (by with_unfolding_all rfl)

theorem posPrice_in01 (pd : PosData) (d : ℚ) (hv : pdPricesIn01 pd = true)
    (hd0 : 0 ≤ d) (hd1 : d ≤ 1) : 0 ≤ posPrice pd d ∧ posPrice pd d ≤ 1 := by
  unfold pdPricesIn01 at hv
  rw [Bool.and_eq_true] at hv
  unfold posPrice
  cases hc : pd.curPrice with
  | some c =>
    rw [hc] at hv
    dsimp only
    split_ifs with h0
    · cases hp : pd.price with
      | some p => rw [hp] at hv; simpa using hv.2
      | none => simp [hp, Option.getD]; exact ⟨hd0, hd1⟩
    · simpa using hv.1
  | none =>
    dsimp only
    cases hp : pd.price with
    | some p => rw [hp] at hv; simpa using hv.2
    | none => simp [hp, Option.getD]; exact ⟨hd0, hd1⟩

theorem create_position_ok (pd : PosData) (tid nickname : String) (e : ℚ)
    (he0 : 0 ≤ e) (he1 : e ≤ 1) :
    PosOk (mirror_create_position pd tid e nickname) := by
  unfold mirror_create_position PosOk
  dsimp only
  split_ifs with hpos
  · have hne : e ≠ 0 := ne_of_gt hpos
    have hup : rnd4 (SLOT_SIZE_USDC / e) ≤ SLOT_SIZE_USDC / e + 1/20000 := rnd4_le _
    have hlo : SLOT_SIZE_USDC / e - 1/20000 ≤ rnd4 (SLOT_SIZE_USDC / e) := le_rnd4 _
    have hdiv : SLOT_SIZE_USDC ≤ SLOT_SIZE_USDC / e := by
      rw [le_div_iff₀ hpos]
      unfold SLOT_SIZE_USDC
      nlinarith
    have hcancel : e * (SLOT_SIZE_USDC / e) = SLOT_SIZE_USDC :=
      mul_div_cancel₀ SLOT_SIZE_USDC hne
    refine ⟨he0, he1, ?_, ?_⟩
    · unfold SLOT_SIZE_USDC at *
      linarith
    · calc e * rnd4 (SLOT_SIZE_USDC / e)
          ≤ e * (SLOT_SIZE_USDC / e + 1/20000) :=
            mul_le_mul_of_nonneg_left hup he0
        _ = SLOT_SIZE_USDC + e * (1/20000) := by rw [mul_add, hcancel]
        _ ≤ SLOT_SIZE_USDC + 1/20000 := by nlinarith
  · rw [rnd4_zero]
    refine ⟨he0, he1, le_refl 0, ?_⟩
    unfold SLOT_SIZE_USDC
    nlinarith

theorem open_position_inv (st : MirrorPortfolio) (nickname : String) (pd : PosData)
    (hv : pdPricesIn01 pd = true) (h : MirrorInv st) :
    MirrorInv (open_position st nickname pd) := by
  obtain ⟨hlen, hbal, hpos, hqt⟩ := h
  have hentry := posPrice_in01 pd (1/2) hv (by norm_num) (by norm_num)
  have hentry2 : 0 ≤ posPrice pd 2⁻¹ ∧ posPrice pd 2⁻¹ ≤ 1 := by
    rw [show (2⁻¹ : ℚ) = 1/2 by norm_num]
    exact hentry
  simp only [open_position]
  split_ifs with h1 h2 h3 h4
  · exact ⟨hlen, hbal, hpos, hqt⟩
  · exact ⟨hlen, hbal, hpos, hqt⟩
  · exact ⟨hlen, hbal, hpos, hqt⟩
  · refine ⟨hlen, hbal, hpos, ?_⟩
    intro qt hq
    rcases List.mem_append.mp hq with hq | hq
    · exact hqt qt hq
    · simp at hq
      rw [hq]
      exact ⟨hentry2.1, hentry2.2⟩
  · push_neg at h4
    obtain ⟨h4len, h4bal⟩ := h4
    refine ⟨?_, ?_, ?_, hqt⟩
    · calc (dinsert (posTokenId pd) _ st.positions).length
          ≤ st.positions.length + 1 := dinsert_length_le _ _ _
        _ ≤ SLOTS := by omega
    · dsimp only
      have : (0:ℚ) ≤ (st.resolved.length : ℚ) / 20000 := by positivity
      unfold SLOT_SIZE_USDC at h4bal ⊢
      linarith
    · intro kv hkv
      rcases dinsert_mem _ kv hkv with hkv | hkv
      · rw [hkv]
        exact create_position_ok pd _ nickname _ hentry.1 hentry.2
      · exact hpos kv hkv

theorem process_queue_aux_inv (B : ℚ) (hB : B ≤ 0) :
    ∀ (queue : List MirrorQueuedTrade) (balance : ℚ)
      (positions : List (String × MirrorPosition)),
      positions.length ≤ SLOTS → B ≤ balance →
      (∀ kv ∈ positions, PosOk kv.2) → (∀ qt ∈ queue, QtOk qt) →
      (process_queue_aux queue balance positions).2.2.length ≤ SLOTS ∧
      B ≤ (process_queue_aux queue balance positions).2.1 ∧
      (∀ kv ∈ (process_queue_aux queue balance positions).2.2, PosOk kv.2) ∧
      (∀ qt ∈ (process_queue_aux queue balance positions).1, QtOk qt) := by
  intro queue
  induction queue with
  | nil =>
    intro balance positions h1 h2 h3 h4
    exact ⟨h1, h2, h3, h4⟩
  | cons qt rest ih =>
    intro balance positions h1 h2 h3 h4
    unfold process_queue_aux
    dsimp only
    split_ifs with hcond
    · obtain ⟨hslot, hbal⟩ := hcond
      have hqt := h4 qt (List.mem_cons_self _ _)
      refine ih (balance - SLOT_SIZE_USDC) _ ?_ ?_ ?_ ?_
      · calc (dinsert qt.token_id _ positions).length
            ≤ positions.length + 1 := dinsert_length_le _ _ _
          _ ≤ SLOTS := by omega
      · unfold SLOT_SIZE_USDC at hbal ⊢
        linarith
      · intro kv hkv
        rcases dinsert_mem _ kv hkv with hkv | hkv
        · rw [hkv]
          exact create_position_ok _ _ _ _ hqt.1 hqt.2
        · exact h3 kv hkv
      · intro q hq
        exact h4 q (List.mem_cons_of_mem _ hq)
    · exact ⟨h1, h2, h3, h4⟩

theorem process_queue_inv (st : MirrorPortfolio) (h : MirrorInv st) :
    MirrorInv (process_queue st) := by
  obtain ⟨hlen, hbal, hpos, hqt⟩ := h
  have haux := process_queue_aux_inv (-((st.resolved.length : ℚ) / 20000))
    (neg_nonpos_of_nonneg (by positivity)) st.queue st.balance st.positions hlen hbal hpos hqt
  exact ⟨haux.1, haux.2.1, haux.2.2.1, haux.2.2.2⟩

theorem pnl_lower_bound (p : MirrorPosition) (hp : PosOk p) (exit_price : ℚ)
    (hex : 0 ≤ exit_price) :
    -(SLOT_SIZE_USDC + 1/20000) ≤ (exit_price - p.entry_price) * p.shares := by
  obtain ⟨h1, h2, h3, h4⟩ := hp
  nlinarith [mul_nonneg hex h3]

theorem close_position_inv (st : MirrorPortfolio) (pd : PosData)
    (hv : pdPricesIn01 pd = true) (h : MirrorInv st) :
    MirrorInv (close_position_by_token st pd) := by
  obtain ⟨hlen, hbal, hpos, hqt⟩ := h
  cases hl : dlookup (posTokenId pd) st.positions with
  | none =>
    simp only [close_position_by_token, hl]
    exact ⟨hlen, hbal, hpos, hqt⟩
  | some position =>
    simp only [close_position_by_token, hl]
    have hmem := dlookup_mem _ _ hl
    have hpok := hpos _ hmem
    have hexit := posPrice_in01 pd position.entry_price hv hpok.1 hpok.2.1
    have hpnl := pnl_lower_bound position hpok _ hexit.1
    apply process_queue_inv
    refine ⟨?_, ?_, ?_, hqt⟩
    · calc (derase (posTokenId pd) st.positions).length
          ≤ st.positions.length := derase_length_le _ _
        _ ≤ SLOTS := hlen
    · dsimp only
      simp only [List.length_cons]
      push_cast
      unfold SLOT_SIZE_USDC at hpnl ⊢
      linarith
    · intro kv hkv
      exact hpos kv (derase_mem _ kv hkv)

theorem mirrorStep_inv (st : MirrorPortfolio) (op : MirrorOp)
    (hv : mirrorOpValid op = true) (h : MirrorInv st) : MirrorInv (mirrorStep st op) := by
  cases op with
  | op_open nickname pd => exact open_position_inv st nickname pd hv h
  | op_close pd => exact close_position_inv st pd hv h
  | op_drain => exact process_queue_inv st h

theorem mirrorRun_inv :
    ∀ (ops : List MirrorOp) (st : MirrorPortfolio),
      (∀ op ∈ ops, mirrorOpValid op = true) → MirrorInv st →
      MirrorInv (mirrorRun st ops) := by
  intro ops
  induction ops with
  | nil => intro st _ h; exact h
  | cons op rest ih =>
    intro st hv h
    have : mirrorRun st (op :: rest) = mirrorRun (mirrorStep st op) rest := by
      simp [mirrorRun]
    rw [this]
    exact ih _ (fun o ho => hv o (List.mem_cons_of_mem _ ho))
      (mirrorStep_inv st op (hv op (List.mem_cons_self _ _)) h)

/-- C2 counterexample: with all position prices in [0, 1] (40 opens, the
first at price 0.30, then closing it at price 0) the mirror portfolio's
free balance reaches −1/100000 USDC — share rounding to 4 decimals lets
the balance dip below zero. -/
theorem mirror_balance_can_go_negative :
    c2Ops.all mirrorOpValid = true ∧
    (mirrorRun (mirrorInit STARTING_BALANCE) c2Ops).balance < 0 :=
  of_decide_eq_true (by with_unfolding_all rfl)

/-- C2 amended: for every reachable mirror-portfolio state (operation
dicts with price fields in [0, 1]), at most 40 positions are open, and
the free balance is at least `−(closed trades)/20000` USDC — the
4-decimal rounding of shares can push it below zero by at most 0.00005
USDC per close (it would be at least 0 without that rounding, as the
spec states). -/
theorem mirror_portfolio_slots_balance (ops : List MirrorOp)
    (hv : ∀ op ∈ ops, mirrorOpValid op = true) :
    (mirrorRun (mirrorInit STARTING_BALANCE) ops).positions.length ≤ 40 ∧
    -(((mirrorRun (mirrorInit STARTING_BALANCE) ops).resolved.length : ℚ) / 20000) ≤
      (mirrorRun (mirrorInit STARTING_BALANCE) ops).balance := by
  have h := mirrorRun_inv ops (mirrorInit STARTING_BALANCE) hv
    (by
      refine ⟨by simp [mirrorInit, SLOTS], ?_, ?_, ?_⟩
      · simp [mirrorInit, STARTING_BALANCE]
      · intro kv hkv; simp [mirrorInit] at hkv
      · intro qt hq; simp [mirrorInit] at hq)
  exact ⟨h.1, h.2.1⟩

/-- C2 witness: a single open at price 0.5. -/
theorem mirror_portfolio_slots_balance_check :
    (mirrorRun (mirrorInit STARTING_BALANCE)
      [MirrorOp.op_open "w" { asset := some "A", curPrice := some (1/2) }]).positions.length ≤ 40 ∧
    -(((mirrorRun (mirrorInit STARTING_BALANCE)
        [MirrorOp.op_open "w" { asset := some "A", curPrice := some (1/2) }]).resolved.length : ℚ) /
        20000) ≤
      (mirrorRun (mirrorInit STARTING_BALANCE)
        [MirrorOp.op_open "w" { asset := some "A", curPrice := some (1/2) }]).balance :=
  mirror_portfolio_slots_balance
    [MirrorOp.op_open "w" { asset := some "A", curPrice := some (1/2) }]
    (of_decide_eq_true (by with_unfolding_all rfl))

-- ═════════════════════════════════════════════════════════════════════════
-- C8 — Poisson over-probability p_over
-- ═════════════════════════════════════════════════════════════════════════

theorem poissonCumSum_nonneg (n : ℕ) (x : ℝ) (hx : 0 ≤ x) : 0 ≤ poissonCumSum n x := by
  unfold poissonCumSum
  apply Finset.sum_nonneg
  intro k _
  positivity

theorem hasDerivAt_poissonCumSum (n : ℕ) (x : ℝ) :
    HasDerivAt (poissonCumSum (n + 1))
      (-(Real.exp (-x) * x ^ n / (Nat.factorial n))) x := by
  have hterm : ∀ k : ℕ, HasDerivAt (fun y : ℝ => Real.exp (-y) * y ^ k / (Nat.factorial k))
      ((Real.exp (-x) * -1 * x ^ k + Real.exp (-x) * ((k : ℝ) * x ^ (k - 1))) /
        (Nat.factorial k)) x := by
    intro k
    have hneg : HasDerivAt (fun y : ℝ => -y) (-1) x := hasDerivAt_neg x
    have hexp : HasDerivAt (fun y : ℝ => Real.exp (-y)) (Real.exp (-x) * -1) x :=
      (Real.hasDerivAt_exp (-x)).comp x hneg
    exact (hexp.mul (hasDerivAt_pow k x)).div_const _
  have hsum : HasDerivAt (fun y : ℝ => ∑ k in Finset.range (n + 1),
        Real.exp (-y) * y ^ k / (Nat.factorial k))
      (∑ k in Finset.range (n + 1),
        (Real.exp (-x) * -1 * x ^ k + Real.exp (-x) * ((k : ℝ) * x ^ (k - 1))) /
          (Nat.factorial k)) x :=
    HasDerivAt.sum (fun k _ => hterm k)
  have hsum' : HasDerivAt (poissonCumSum (n + 1))
      (∑ k in Finset.range (n + 1),
        (Real.exp (-x) * -1 * x ^ k + Real.exp (-x) * ((k : ℝ) * x ^ (k - 1))) /
          (Nat.factorial k)) x := hsum
  convert hsum' using 1
  have hsplit : ∀ k ∈ Finset.range (n + 1),
      (Real.exp (-x) * -1 * x ^ k + Real.exp (-x) * ((k : ℝ) * x ^ (k - 1))) /
          (Nat.factorial k) =
        Real.exp (-x) * ((k : ℝ) * x ^ (k - 1)) / (Nat.factorial k) -
          Real.exp (-x) * x ^ k / (Nat.factorial k) := by
    intro k _
    ring
  rw [Finset.sum_congr rfl hsplit, Finset.sum_sub_distrib]
  have hfirst : ∑ k in Finset.range (n + 1),
      Real.exp (-x) * ((k : ℝ) * x ^ (k - 1)) / (Nat.factorial k) =
      ∑ j in Finset.range n, Real.exp (-x) * x ^ j / (Nat.factorial j) := by
    rw [Finset.sum_range_succ']
    have h0 : Real.exp (-x) * (((0 : ℕ) : ℝ) * x ^ (0 - 1)) / (Nat.factorial 0) = 0 := by
      simp
    rw [h0, add_zero]
    apply Finset.sum_congr rfl
    intro j _
    have hfac : ((Nat.factorial (j + 1) : ℕ) : ℝ) = ((j : ℝ) + 1) * (Nat.factorial j) := by
      rw [Nat.factorial_succ]
      push_cast
      ring
    have hne : ((Nat.factorial j : ℕ) : ℝ) ≠ 0 :=
      Nat.cast_ne_zero.mpr (Nat.factorial_ne_zero j)
    have hne1 : ((j : ℝ) + 1) ≠ 0 := by positivity
    rw [hfac]
    have hj : (j + 1) - 1 = j := rfl
    rw [hj]
    push_cast
    field_simp
    ring
  rw [hfirst, Finset.sum_range_succ]
  ring

theorem poissonCumSum_antitoneOn (n : ℕ) :
    AntitoneOn (poissonCumSum (n + 1)) (Set.Ici (0 : ℝ)) := by
  have hdiff : Differentiable ℝ (poissonCumSum (n + 1)) :=
    fun x => (hasDerivAt_poissonCumSum n x).differentiableAt
  apply antitoneOn_of_deriv_nonpos (convex_Ici 0) hdiff.continuous.continuousOn
    hdiff.differentiableOn
  intro x hx
  rw [interior_Ici] at hx
  rw [(hasDerivAt_poissonCumSum n x).deriv]
  have : 0 ≤ Real.exp (-x) * x ^ n / (Nat.factorial n) := by
    have := le_of_lt hx
    positivity
  linarith

theorem p_over_pos_branch (L : ℚ) (g : ℤ) (t : ℚ)
    (hn : 0 < ratTrunc L + 1 - g) (ht : 0 < t) :
    p_over L g t =
      max 0 (min 1 (1 - poissonCumSum (ratTrunc L + 1 - g).toNat
        ((GOALS_PER_MIN : ℝ) * (t : ℝ)))) := by
  unfold p_over
  rw [if_neg (by omega), if_neg (by exact not_le.mpr ht)]
  have hlam : 0 < (GOALS_PER_MIN : ℝ) * (t : ℝ) := by
    apply mul_pos
    · rw [show (GOALS_PER_MIN : ℝ) = ((13 : ℝ) / 450) by norm_num [GOALS_PER_MIN]]
      norm_num
    · exact_mod_cast ht
  have hsum : (∑ k in Finset.range (ratTrunc L + 1 - g).toNat,
        poisson_pmf k ((GOALS_PER_MIN : ℝ) * (t : ℝ))) =
      poissonCumSum (ratTrunc L + 1 - g).toNat ((GOALS_PER_MIN : ℝ) * (t : ℝ)) := by
    apply Finset.sum_congr rfl
    intro k _
    unfold poisson_pmf
    rw [if_neg (not_le.mpr hlam)]
  dsimp only
  rw [hsum]

theorem p_over_nonneg_le_one (L : ℚ) (g : ℤ) (t : ℚ) :
    0 ≤ p_over L g t ∧ p_over L g t ≤ 1 := by
  unfold p_over
  by_cases h1 : ratTrunc L + 1 - g ≤ 0
  · rw [if_pos h1]
    norm_num
  · rw [if_neg h1]
    by_cases h2 : t ≤ 0
    · rw [if_pos h2]
      norm_num
    · rw [if_neg h2]
      exact ⟨le_max_left 0 _, max_le zero_le_one (min_le_left 1 _)⟩

theorem clamp01_mono {a b : ℝ} (h : a ≤ b) : max 0 (min 1 a) ≤ max 0 (min 1 b) :=
  max_le_max le_rfl (min_le_min le_rfl h)

theorem goals_per_min_pos : 0 < ((GOALS_PER_MIN : ℚ) : ℝ) := by
  rw [show ((GOALS_PER_MIN : ℚ) : ℝ) = (13 : ℝ) / 450 from by norm_num [GOALS_PER_MIN]]
  norm_num

theorem p_over_mono_t (L : ℚ) (g : ℤ) (t₁ t₂ : ℚ) (h : t₁ ≤ t₂) :
    p_over L g t₁ ≤ p_over L g t₂ := by
  by_cases hn : ratTrunc L + 1 - g ≤ 0
  · unfold p_over
    rw [if_pos hn, if_pos hn]
  · by_cases h2 : t₂ ≤ 0
    · have h1 : t₁ ≤ 0 := le_trans h h2
      unfold p_over
      rw [if_neg hn, if_neg hn, if_pos h1, if_pos h2]
    · push_neg at h2
      by_cases h1 : t₁ ≤ 0
      · have hL : p_over L g t₁ = 0 := by
          unfold p_over
          rw [if_neg hn, if_pos h1]
        rw [hL]
        exact (p_over_nonneg_le_one L g t₂).1
      · push_neg at h1
        rw [p_over_pos_branch L g t₁ (by omega) h1,
          p_over_pos_branch L g t₂ (by omega) h2]
        apply clamp01_mono
        have hc := le_of_lt goals_per_min_pos
        have ht12 : ((t₁ : ℚ) : ℝ) ≤ ((t₂ : ℚ) : ℝ) := by exact_mod_cast h
        have hmem1 : ((GOALS_PER_MIN : ℚ) : ℝ) * (t₁ : ℝ) ∈ Set.Ici (0 : ℝ) := by
          have : (0 : ℝ) ≤ (t₁ : ℝ) := by
            have := le_of_lt h1
            exact_mod_cast this
          exact Set.mem_Ici.mpr (mul_nonneg hc this)
        have hmem2 : ((GOALS_PER_MIN : ℚ) : ℝ) * (t₂ : ℝ) ∈ Set.Ici (0 : ℝ) := by
          have : (0 : ℝ) ≤ (t₂ : ℝ) := by
            have := le_of_lt h2
            exact_mod_cast this
          exact Set.mem_Ici.mpr (mul_nonneg hc this)
        obtain ⟨m, hm⟩ : ∃ m, (ratTrunc L + 1 - g).toNat = m + 1 :=
          ⟨(ratTrunc L + 1 - g).toNat - 1, by omega⟩
        rw [hm]
        have hmono := poissonCumSum_antitoneOn m hmem1 hmem2
          (mul_le_mul_of_nonneg_left ht12 hc)
        linarith

theorem p_over_mono_g (L : ℚ) (g₁ g₂ : ℤ) (t : ℚ) (h : g₁ ≤ g₂) :
    p_over L g₁ t ≤ p_over L g₂ t := by
  by_cases hn2 : ratTrunc L + 1 - g₂ ≤ 0
  · have hR : p_over L g₂ t = 1 := by
      unfold p_over
      rw [if_pos hn2]
    rw [hR]
    exact (p_over_nonneg_le_one L g₁ t).2
  · have hn1 : ¬(ratTrunc L + 1 - g₁ ≤ 0) := by omega
    by_cases ht : t ≤ 0
    · unfold p_over
      rw [if_neg hn1, if_neg hn2, if_pos ht, if_pos ht]
    · push_neg at ht
      rw [p_over_pos_branch L g₁ t (by omega) ht,
        p_over_pos_branch L g₂ t (by omega) ht]
      apply clamp01_mono
      have hlam : (0 : ℝ) ≤ ((GOALS_PER_MIN : ℚ) : ℝ) * (t : ℝ) := by
        have : (0 : ℝ) ≤ (t : ℝ) := by
          have := le_of_lt ht
          exact_mod_cast this
        exact mul_nonneg (le_of_lt goals_per_min_pos) this
      have hsub : poissonCumSum (ratTrunc L + 1 - g₂).toNat
            (((GOALS_PER_MIN : ℚ) : ℝ) * (t : ℝ)) ≤
          poissonCumSum (ratTrunc L + 1 - g₁).toNat
            (((GOALS_PER_MIN : ℚ) : ℝ) * (t : ℝ)) := by
        unfold poissonCumSum
        apply Finset.sum_le_sum_of_subset_of_nonneg
        · exact Finset.range_subset.mpr (by omega)
        · intro k _ _
          exact div_nonneg (mul_nonneg (le_of_lt (Real.exp_pos _)) (pow_nonneg hlam k))
            (Nat.cast_nonneg _)
      linarith

/-- C8 amended: `p_over` is monotonically non-decreasing in the remaining
minutes and in the current goal count, always lies in [0, 1], returns 1
whenever `needed = int(L) + 1 − g ≤ 0` (Python `int` truncates toward
zero; the spec's `⌊L⌋` differs on negative non-integer lines), and
returns 0 whenever `needed > 0` and no minutes remain. -/
theorem p_over_props :
    (∀ (L : ℚ) (g : ℤ) (t₁ t₂ : ℚ), t₁ ≤ t₂ → p_over L g t₁ ≤ p_over L g t₂) ∧
    (∀ (L : ℚ) (g₁ g₂ : ℤ) (t : ℚ), g₁ ≤ g₂ → p_over L g₁ t ≤ p_over L g₂ t) ∧
    (∀ (L : ℚ) (g : ℤ) (t : ℚ), 0 ≤ p_over L g t ∧ p_over L g t ≤ 1) ∧
    (∀ (L : ℚ) (g : ℤ) (t : ℚ), ratTrunc L + 1 - g ≤ 0 → p_over L g t = 1) ∧
    (∀ (L : ℚ) (g : ℤ) (t : ℚ), 0 < ratTrunc L + 1 - g → t ≤ 0 → p_over L g t = 0) := by
  refine ⟨p_over_mono_t, p_over_mono_g, p_over_nonneg_le_one, ?_, ?_⟩
  · intro L g t hn
    unfold p_over
    rw [if_pos hn]
  · intro L g t hn ht
    unfold p_over
    rw [if_neg (by omega), if_pos ht]

/-- C8 counterexample: with the spec's `⌊L⌋` the claim demands
`p_over(-0.5, 0, 45) = 1` (needed = ⌊-0.5⌋ + 1 - 0 = 0 ≤ 0), but the code
truncates `int(-0.5) = 0`, computes `needed = 1 > 0`, and returns
`1 − e^{−1.3} < 1`. -/
theorem p_over_floor_mismatch :
    ⌊(-1/2 : ℚ)⌋ + 1 - (0 : ℤ) ≤ 0 ∧ p_over (-1/2) 0 45 ≠ 1 := by
  have hf : ⌊(-1/2 : ℚ)⌋ = -1 := by
    rw [Int.floor_eq_iff]
    constructor <;> norm_num
  have hhalf : ⌊(1/2 : ℚ)⌋ = 0 := by
    rw [Int.floor_eq_iff]
    constructor <;> norm_num
  have htr : ratTrunc (-1/2 : ℚ) = 0 := by
    unfold ratTrunc
    rw [if_neg (by norm_num)]
    rw [show (-(-1/2 : ℚ)) = 1/2 from by norm_num, hhalf]
    rfl
  constructor
  · rw [hf]
    omega
  · rw [p_over_pos_branch (-1/2) 0 45 (by rw [htr]; omega) (by norm_num)]
    have hnat : (ratTrunc (-1/2 : ℚ) + 1 - 0).toNat = 1 := by
      rw [htr]
      rfl
    rw [hnat]
    have hsum1 : poissonCumSum 1 (((GOALS_PER_MIN : ℚ) : ℝ) * ((45 : ℚ) : ℝ)) =
        Real.exp (-(((GOALS_PER_MIN : ℚ) : ℝ) * ((45 : ℚ) : ℝ))) := by
      unfold poissonCumSum
      rw [Finset.sum_range_one]
      simp
    rw [hsum1]
    have hE1 : Real.exp (-(((GOALS_PER_MIN : ℚ) : ℝ) * ((45 : ℚ) : ℝ))) < 1 := by
      rw [Real.exp_lt_one_iff]
      have h45 : (0 : ℝ) < ((45 : ℚ) : ℝ) := by norm_num
      have := mul_pos goals_per_min_pos h45
      linarith
    have hE0 : 0 < Real.exp (-(((GOALS_PER_MIN : ℚ) : ℝ) * ((45 : ℚ) : ℝ))) :=
      Real.exp_pos _
    rw [min_eq_right (by linarith), max_eq_right (by linarith)]
    intro heq
    have : Real.exp (-(((GOALS_PER_MIN : ℚ) : ℝ) * ((45 : ℚ) : ℝ))) = 0 := by linarith
    linarith

/-- C8 witness: concrete monotone pairs, range bounds, and both boundary
branches on the line 2.5. -/
theorem p_over_props_check :
    (p_over (5/2) 1 10 ≤ p_over (5/2) 1 20) ∧
    (p_over (5/2) 1 45 ≤ p_over (5/2) 2 45) ∧
    (0 ≤ p_over (5/2) 1 45 ∧ p_over (5/2) 1 45 ≤ 1) ∧
    (p_over (5/2) 3 45 = 1) ∧
    (p_over (5/2) 1 0 = 0) := by
  have htr : ratTrunc (5/2 : ℚ) = 2 := by
    unfold ratTrunc
    rw [if_pos (by norm_num)]
    rw [Int.floor_eq_iff]
    constructor <;> norm_num
  exact ⟨p_over_props.1 (5/2) 1 10 20 (by norm_num),
    p_over_props.2.1 (5/2) 1 2 45 (by norm_num),
    p_over_props.2.2.1 (5/2) 1 45,
    p_over_props.2.2.2.1 (5/2) 3 45 (by rw [htr]; omega),
    p_over_props.2.2.2.2 (5/2) 1 0 (by rw [htr]; omega) (le_refl 0)⟩
